import Mathlib

/-!
DNS resolution support (package `support`, file `plugins/support/resolvers.go`)

A shallow embedding of the query-retry protocol, the wildcard filter, the
acquisition of the public resolver list, the package initialisation and the
bounded guess pipeline, followed by the properties established about them.

Conventions of the embedding

* Go values `(x, err)` are pairs whose error component is an `Option String`
  (`none` is the nil error).  A nil slice returned to a caller that tests it
  against nil is `none` in an `Option (List _)`.
* A run-time panic (nil dereference, index out of range) is a `Fault`.
* The resolver engine is driven by a call counter: `QueryBlocking n msg` is the
  outcome of the call made when `n` calls have already been made.  Functions
  that query the engine take the counter and return its new value, so the number
  of engine calls of a run is the difference of the two.
* Functions of other libraries (`resolve`, `publicsuffix`, `net`, `strconv`,
  `encoding/csv`) whose result depends on tables or on large parsers are fields
  of `Deps`; the small ones are written out.
-/

namespace Support

/-! ## Strings -/

/-- The function `strings.ToLower`, on the ASCII range (upper-case letters A-Z are mapped,
every other character is kept). -/
def ToLower (s : String) : String := String.mk (s.data.map Char.toLower)

/-- The predicate `unicode.IsSpace`: the white space characters removed by `strings.TrimSpace`. -/
def isSpace (c : Char) : Bool :=
  c = '\t' || c = '\n' || c.toNat = 0x0B || c.toNat = 0x0C || c = '\r' || c = ' ' ||
  c.toNat = 0x85 || c.toNat = 0xA0 || c.toNat = 0x1680 ||
  (0x2000 ≤ c.toNat && c.toNat ≤ 0x200A) ||
  c.toNat = 0x2028 || c.toNat = 0x2029 || c.toNat = 0x202F || c.toNat = 0x205F ||
  c.toNat = 0x3000

/-- The function `strings.TrimSpace`: leading and trailing white space removed. -/
def TrimSpace (s : String) : String :=
  String.mk ((s.data.dropWhile isSpace).reverse.dropWhile isSpace).reverse

/-- The function `resolve.RemoveLastDot`: one trailing dot removed, if there is one. -/
def RemoveLastDot (name : String) : String :=
  match name.data.reverse with
  | '.' :: rest => String.mk rest.reverse
  | _ => name

/-! ## DNS messages and the resolver pool -/

/-- A run-time panic of the Go program. -/
inductive Fault where
  | nilDereference
  | indexOutOfRange
deriving DecidableEq, Repr

/-- The constant `dns.RcodeSuccess`. -/
def RcodeSuccess : Int := 0
/-- The constant `dns.RcodeNameError` (NXDOMAIN). -/
def RcodeNameError : Int := 3
/-- The constant `dns.TypeA`. -/
def TypeA : Nat := 1
/-- The constant `dns.TypeCNAME`. -/
def TypeCNAME : Nat := 5
/-- The constant `dns.TypePTR`. -/
def TypePTR : Nat := 12
/-- The constant `dns.TypeAAAA`. -/
def TypeAAAA : Nat := 28

/-- An entry of the question section, `dns.Question`. -/
structure Question where
  Name : String
  Qtype : Nat
deriving DecidableEq, Repr

/-- A resource record of the answer section: owner name, record type and the
textual form of its data. -/
structure RR where
  Name : String
  Rrtype : Nat
  Rdata : String
deriving DecidableEq, Repr

/-- The part of `dns.Msg` that the package reads. -/
structure Msg where
  Rcode : Int
  Question : List Question
  Answer : List RR
deriving DecidableEq, Repr

/-- The type `resolve.ExtractedAnswer`; `RType` is its field `Type`. -/
structure ExtractedAnswer where
  Name : String
  RType : Nat
  Data : String
deriving DecidableEq, Repr

/-- The type `resolve.ThresholdOptions`. -/
structure ThresholdOptions where
  ThresholdValue : Nat
  CountTimeouts : Bool
  CountFormatErrors : Bool
  CountServerFailures : Bool
  CountNotImplemented : Bool
  CountQueryRefusals : Bool
deriving DecidableEq, Repr

/-- The type `baseline`: a catalog entry, an address and its queries per second. -/
structure baseline where
  address : String
  qps : Int
deriving DecidableEq, Repr

/-- A finite decimal `± mant / 10 ^ scale`: the value of a resolver's reliability,
kept exact. -/
structure Decimal where
  neg : Bool
  mant : Nat
  scale : Nat
deriving DecidableEq, Repr

/-- The numerator of a decimal, with its sign. -/
def Decimal.num (a : Decimal) : Int := if a.neg then -(a.mant : Int) else (a.mant : Int)

/-- The comparison `a >= b` of two decimals. -/
def Decimal.ge (a b : Decimal) : Bool :=
  decide (b.num * (10 : Int) ^ a.scale ≤ a.num * (10 : Int) ^ b.scale)

/-- The shared `resolve.RateTracker`. -/
structure RateTracker where
  id : Nat
deriving DecidableEq, Repr

/-- A pool `resolve.Resolvers`: what the configuration methods have stored in it,
and how it answers.  `QueryBlocking n msg` is the outcome of the engine call made
after `n` earlier calls: a transport error or a response. -/
structure Resolvers where
  servers : List (Int × String)
  timeoutSeconds : Nat
  detection : Option (Int × String)
  threshold : Option ThresholdOptions
  subnetCheck : Bool
  rateTracker : Option RateTracker
  QueryBlocking : Nat → Option Msg → Except String Msg
  WildcardDetected : Msg → String → Bool

/-- The method `Resolvers.Len`: the number of servers of the pool. -/
def Resolvers.Len (r : Resolvers) : Nat := r.servers.length

/-- Functions of other libraries, taken as given. -/
structure Deps where
  /-- The function `resolve.QueryMsg`. -/
  QueryMsg : String → Nat → Option Msg
  /-- The function `resolve.ReverseMsg`. -/
  ReverseMsg : String → Option Msg
  /-- The function `resolve.ExtractAnswers`. -/
  ExtractAnswers : Msg → List ExtractedAnswer
  /-- The function `publicsuffix.EffectiveTLDPlusOne`. -/
  EffectiveTLDPlusOne : String → Except String String
  /-- Whether `net.ParseIP` returns a non-nil address. -/
  ParseIP : String → Bool
  /-- The function `strconv.ParseFloat`: the value read, `none` for an error. -/
  ParseFloat : String → Option Decimal
  /-- The function `resolve.NewResolvers`: a fresh pool, or nil. -/
  NewResolvers : Option Resolvers
  /-- The order in which `rand.Shuffle` leaves the catalog. -/
  Shuffle : List baseline → List baseline

/-- The function `resolve.AnswersByType`: the answers of the given record type. -/
def AnswersByType (answers : List ExtractedAnswer) (qtype : Nat) : List ExtractedAnswer :=
  answers.filter (fun a => a.RType = qtype)

/-- The pair `(resp, err)` returned by `dnsQuery`. -/
abbrev DnsResult := Option Msg × Option String

/-- The pair `(answers, err)` returned by `PerformQuery`. -/
abbrev QueryResult := Option (List ExtractedAnswer) × Option String

/-- The loop of `dnsQuery` with `left` iterations to go (`left = attempts - num`),
when `calls` engine calls have been made. -/
def dnsQueryLoop (msg : Option Msg) (r : Option Resolvers) :
    Nat → Nat → Except Fault DnsResult × Nat
  | 0, calls => (.ok (none, none), calls)
  | left + 1, calls =>
    match r with
    | none => (.error Fault.nilDereference, calls)
    | some p =>
      match p.QueryBlocking calls msg with
      | .error _ => dnsQueryLoop msg r left (calls + 1)
      | .ok resp =>
        if resp.Rcode = RcodeNameError then
          (.ok (none, some "name does not exist"), calls + 1)
        else if resp.Rcode = RcodeSuccess then
          if resp.Answer.length = 0 then
            (.ok (none, some "no record of this type"), calls + 1)
          else
            (.ok (some resp, none), calls + 1)
        else dnsQueryLoop msg r left (calls + 1)

/-- The function `dnsQuery`. -/
def dnsQuery (msg : Option Msg) (r : Option Resolvers) (attempts : Int) (calls : Nat) :
    Except Fault DnsResult × Nat :=
  dnsQueryLoop msg r attempts.toNat calls

/-- The function `wildcardDetected`. -/
def wildcardDetected (d : Deps) (resp : Msg) (r : Option Resolvers) : Except Fault Bool :=
  match resp.Question with
  | [] => .error Fault.indexOutOfRange
  | q :: _ =>
    let name := ToLower (RemoveLastDot q.Name)
    match d.EffectiveTLDPlusOne name with
    | .ok dom =>
      if dom ≠ "" then
        match r with
        | none => .error Fault.nilDereference
        | some p => .ok (p.WildcardDetected resp dom)
      else .ok false
    | .error _ => .ok false

/-- The function `normalize`: `results` starts nil and receives one lower-cased
copy per record. -/
def normalize (records : List ExtractedAnswer) : Option (List ExtractedAnswer) :=
  records.foldl
    (fun results rr =>
      some (results.getD [] ++
        [{ Name := ToLower rr.Name, RType := rr.RType, Data := ToLower rr.Data }]))
    none

/-- What `PerformQuery` and `PerformUntrustedQuery` do with the result of `dnsQuery`. -/
def filterAnswers (d : Deps) (r : Option Resolvers) (qtype : Nat) :
    DnsResult → Except Fault QueryResult
  | (some resp, none) =>
    match wildcardDetected d resp r with
    | .error f => .error f
    | .ok true => .ok (none, none)
    | .ok false =>
      let ans := d.ExtractAnswers resp
      if ans.length > 0 then
        let rr := AnswersByType ans qtype
        if rr.length > 0 then .ok (normalize rr, none) else .ok (none, none)
      else .ok (none, none)
  | (_, err) => .ok (none, err)

/-- The query message built by `PerformQuery` and `PerformUntrustedQuery`. -/
def queryMessage (d : Deps) (name : String) (qtype : Nat) : Option Msg :=
  if qtype = TypePTR then d.ReverseMsg name else d.QueryMsg name qtype

/-- The common body of `PerformQuery` and `PerformUntrustedQuery`, which differ
in the pool only. -/
def performOn (d : Deps) (r : Option Resolvers) (name : String) (qtype : Nat) (calls : Nat) :
    Except Fault QueryResult × Nat :=
  match dnsQuery (queryMessage d name qtype) r 50 calls with
  | (.error f, calls1) => (.error f, calls1)
  | (.ok res, calls1) => (filterAnswers d r qtype res, calls1)

/-- The package variables `trusted` and `untrusted`. -/
structure Pools where
  trusted : Option Resolvers
  untrusted : Option Resolvers

/-- The function `PerformQuery`. -/
def PerformQuery (d : Deps) (g : Pools) (name : String) (qtype : Nat) (calls : Nat) :
    Except Fault QueryResult × Nat :=
  performOn d g.trusted name qtype calls

/-- The function `PerformUntrustedQuery`. -/
def PerformUntrustedQuery (d : Deps) (g : Pools) (name : String) (qtype : Nat) (calls : Nat) :
    Except Fault QueryResult × Nat :=
  performOn d g.untrusted name qtype calls

/-! ## Acquisition of the public resolver list -/

/-- The constant `queriesPerPublicResolver`. -/
def queriesPerPublicResolver : Int := 5

/-- The constant `minResolverReliability`, 0.85. -/
def minResolverReliability : Decimal := ⟨false, 85, 2⟩

/-- The catalog `baselineResolvers` of trusted public DNS resolvers. -/
def baselineResolvers : List baseline := [
  baseline.mk "8.8.8.8" 20,
  baseline.mk "8.8.4.4" 20,
  baseline.mk "2001:4860:4860::8888" 20,
  baseline.mk "2001:4860:4860::8844" 20,
  baseline.mk "95.85.95.85" 10,
  baseline.mk "2.56.220.2" 10,
  baseline.mk "2a03:90c0:999d::1" 10,
  baseline.mk "2a03:90c0:9992::1" 10,
  baseline.mk "76.76.2.0" 10,
  baseline.mk "76.76.10.0" 10,
  baseline.mk "9.9.9.9" 10,
  baseline.mk "149.112.112.112" 10,
  baseline.mk "2620:fe::fe" 10,
  baseline.mk "2620:fe::9" 10,
  baseline.mk "208.67.222.222" 10,
  baseline.mk "208.67.220.220" 10,
  baseline.mk "2620:0:ccc::2" 10,
  baseline.mk "2620:0:ccd::2" 10,
  baseline.mk "1.1.1.1" 15,
  baseline.mk "1.0.0.1" 15,
  baseline.mk "2606:4700:4700::1111" 15,
  baseline.mk "2606:4700:4700::1001" 15,
  baseline.mk "185.228.168.9" 5,
  baseline.mk "185.228.169.9" 5,
  baseline.mk "76.76.19.19" 5,
  baseline.mk "76.223.122.150" 5,
  baseline.mk "2602:fcbc::ad" 5,
  baseline.mk "2602:fcbc:2::ad" 5,
  baseline.mk "94.140.14.14" 5,
  baseline.mk "94.140.15.15" 5,
  baseline.mk "176.103.130.130" 5,
  baseline.mk "176.103.130.131" 5,
  baseline.mk "94.140.14.140" 5,
  baseline.mk "94.140.14.141" 5,
  baseline.mk "2a10:50c0::1:ff" 5,
  baseline.mk "2a10:50c0::2:ff" 5,
  baseline.mk "8.26.56.26" 5,
  baseline.mk "8.20.247.20" 5,
  baseline.mk "205.171.3.65" 5,
  baseline.mk "205.171.2.65" 5,
  baseline.mk "2001:428::1" 5,
  baseline.mk "2001:428::2" 5,
  baseline.mk "64.6.64.6" 5,
  baseline.mk "64.6.65.6" 5,
  baseline.mk "2620:74:1b::1:1" 5,
  baseline.mk "2620:74:1c::2:2" 5,
  baseline.mk "209.244.0.3" 5,
  baseline.mk "209.244.0.4" 5,
  baseline.mk "149.112.121.10" 5,
  baseline.mk "149.112.122.10" 5,
  baseline.mk "2620:10A:80BB::10" 5,
  baseline.mk "2620:10A:80BC::10" 5,
  baseline.mk "138.197.140.189" 5,
  baseline.mk "162.243.19.47" 5,
  baseline.mk "216.87.84.211" 5,
  baseline.mk "23.90.4.6" 5,
  baseline.mk "216.146.35.35" 5,
  baseline.mk "216.146.36.36" 5,
  baseline.mk "91.239.100.100" 5,
  baseline.mk "89.233.43.71" 5,
  baseline.mk "2001:67c:28a4::" 5,
  baseline.mk "2a01:3a0:53:53::" 5,
  baseline.mk "77.88.8.8" 5,
  baseline.mk "77.88.8.1" 5,
  baseline.mk "2a02:6b8::feed:0ff" 5,
  baseline.mk "2a02:6b8:0:1::feed:0ff" 5,
  baseline.mk "74.82.42.42" 5,
  baseline.mk "2001:470:20::2" 5,
  baseline.mk "94.130.180.225" 5,
  baseline.mk "78.47.64.161" 5,
  baseline.mk "2a01:4f8:1c0c:40db::1" 5,
  baseline.mk "2a01:4f8:1c17:4df8::1" 5,
  baseline.mk "185.236.104.104" 5,
  baseline.mk "185.236.105.105" 5,
  baseline.mk "2a12:7bc0:104:104::" 5,
  baseline.mk "2a12:7bc0:105:105::" 5,
  baseline.mk "80.80.80.80" 5,
  baseline.mk "80.80.81.81" 5,
  baseline.mk "84.200.69.80" 5,
  baseline.mk "84.200.70.40" 5,
  baseline.mk "2001:1608:10:25::1c04:b12f" 5,
  baseline.mk "2001:1608:10:25::9249:d69b" 5,
  baseline.mk "156.154.70.5" 5,
  baseline.mk "156.157.71.5" 5,
  baseline.mk "81.218.119.11" 5,
  baseline.mk "209.88.198.133" 5,
  baseline.mk "37.235.1.174" 5,
  baseline.mk "37.235.1.177" 5,
  baseline.mk "38.132.106.139" 5,
  baseline.mk "194.187.251.67" 5
]

/-- The result of one `csv.Reader.Read` before `io.EOF`: a parse error or a record. -/
abbrev ReadResult := Except String (List String)

/-- The answer of `http.RequestWebPage`.  The body is given by the sequence of
results that the successive reads of a `csv.Reader` yield on it before `io.EOF`. -/
structure Response where
  StatusCode : Int
  Body : List ReadResult

/-- The scan of the header record in `publicDNSResolvers`: `idx` is the position of
`val`, the pair holds `ipIdx` and `reliabilityIdx`. -/
def scanHeader : List String → Nat → Nat × Nat → Nat × Nat
  | [], _, acc => acc
  | val :: rest, idx, (ipIdx, reliabilityIdx) =>
    if val = "ip_address" then scanHeader rest (idx + 1) (idx, reliabilityIdx)
    else if val = "reliability" then scanHeader rest (idx + 1) (ipIdx, idx)
    else scanHeader rest (idx + 1) (ipIdx, reliabilityIdx)

/-- The reading loop of `publicDNSResolvers`, at iteration `i`, over the reads that
are still to come.  An index beyond the end of a record is a fault. -/
def readRows (d : Deps) :
    List ReadResult → Nat → Nat → Nat → List String → Except Fault (List String)
  | [], _, _, _, resolvers => .ok resolvers
  | .error _ :: rest, i, ipIdx, reliabilityIdx, resolvers =>
    readRows d rest (i + 1) ipIdx reliabilityIdx resolvers
  | .ok record :: rest, i, ipIdx, reliabilityIdx, resolvers =>
    if i = 0 then
      readRows d rest (i + 1) (scanHeader record 0 (ipIdx, reliabilityIdx)).1
        (scanHeader record 0 (ipIdx, reliabilityIdx)).2 resolvers
    else
      match record[reliabilityIdx]? with
      | none => .error Fault.indexOutOfRange
      | some field =>
        match d.ParseFloat field with
        | some rel =>
          if rel.ge minResolverReliability then
            match record[ipIdx]? with
            | none => .error Fault.indexOutOfRange
            | some addr => readRows d rest (i + 1) ipIdx reliabilityIdx (resolvers ++ [addr])
          else readRows d rest (i + 1) ipIdx reliabilityIdx resolvers
        | none => readRows d rest (i + 1) ipIdx reliabilityIdx resolvers

/-- The second loop of `publicDNSResolvers`: the addresses equal to a catalog
address are skipped, the others are kept with their white space trimmed. -/
def dropBaseline (resolvers : List String) : List String :=
  (resolvers.filter (fun addr => !(baselineResolvers.any (fun br => addr = br.address)))).map
    TrimSpace

/-- The function `publicDNSResolvers`, given the outcome of the web request. -/
def publicDNSResolvers (d : Deps) (fetch : Except String Response) :
    Except Fault (Except String (List String)) :=
  match fetch with
  | .error _ => .ok (.error "failed to obtain the Public DNS csv file")
  | .ok resp =>
    if resp.StatusCode < 200 ∨ resp.StatusCode ≥ 400 then
      .ok (.error "failed to obtain the Public DNS csv file")
    else
      match readRows d resp.Body 0 0 0 [] with
      | .error f => .error f
      | .ok resolvers => .ok (.ok (dropBaseline resolvers))

/-- The function `stringset.Deduplicate`: the distinct lower-cased elements (the set
lower-cases what is inserted; the order of its slice is the one fixed here). -/
def Deduplicate (input : List String) : List String := (input.map ToLower).dedup

/-- The position of the first occurrence of a character. -/
def indexOfChar (c : Char) : List Char → Option Nat
  | [] => none
  | x :: xs => if x = c then some 0 else (indexOfChar c xs).map (· + 1)

/-- The position of the last occurrence of a character. -/
def lastIndexOfChar (c : Char) : List Char → Option Nat
  | [] => none
  | x :: xs =>
    match lastIndexOfChar c xs with
    | some i => some (i + 1)
    | none => if x = c then some 0 else none

/-- The end of `net.SplitHostPort`: no bracket may remain from position `j`
(opening) and `k` (closing) on; the port starts after the colon at position `i`. -/
def splitTail (s host : List Char) (i j k : Nat) : Option (String × String) :=
  if (s.drop j).contains '[' then none
  else if (s.drop k).contains ']' then none
  else some (String.mk host, String.mk (s.drop (i + 1)))

/-- The function `net.SplitHostPort`: host and port, `none` for an error. -/
def SplitHostPort (hostport : String) : Option (String × String) :=
  let s := hostport.data
  match lastIndexOfChar ':' s with
  | none => none
  | some i =>
    if s.head? = some '[' then
      match indexOfChar ']' s with
      | none => none
      | some close =>
        if close + 1 = s.length then none
        else if close + 1 = i then splitTail s ((s.take close).drop 1) i 1 (close + 1)
        else none
    else
      if (s.take i).contains ':' then none
      else splitTail s (s.take i) i 0 0

/-- The function `net.JoinHostPort`. -/
def JoinHostPort (host port : String) : String :=
  if host.data.contains ':' then "[" ++ host ++ "]:" ++ port else host ++ ":" ++ port

/-- The host and the port that `checkAddresses` reads off an address: those that
`net.SplitHostPort` returns, or the address itself and the port 53 when it fails. -/
def hostAndPort (addr : String) : String × String :=
  match SplitHostPort addr with
  | some (ip, port) => (ip, port)
  | none => (addr, "53")

/-- The function `checkAddresses`. -/
def checkAddresses (d : Deps) : List String → List String
  | [] => []
  | addr :: rest =>
    let hp : String × String :=
      match SplitHostPort addr with
      | some (ip, port) => (ip, port)
      | none => (addr, "53")
    if d.ParseIP hp.1 then JoinHostPort hp.1 hp.2 :: checkAddresses d rest
    else checkAddresses d rest

/-! ## Construction of the pools and package initialisation -/

/-- Whether the pool already has a resolver with the given IP. -/
def Resolvers.hasIP (r : Resolvers) (ip : String) : Bool :=
  r.servers.any (fun s => (hostAndPort s.2).1 = ip)

/-- One address added to the pool: the pool keeps one resolver per IP, so an address
whose IP it already has is skipped; otherwise the endpoint `IP:port` is added, with
the port 53 for an address without a port.  The addresses that this package passes
are valid IP literals, with or without a port. -/
def Resolvers.addResolver (r : Resolvers) (qps : Int) (addr : String) : Resolvers :=
  if r.hasIP (hostAndPort addr).1 then r
  else
    { r with
      servers := r.servers ++ [(qps, JoinHostPort (hostAndPort addr).1 (hostAndPort addr).2)] }

/-- The method `Resolvers.AddResolvers`: the addresses are added one by one. -/
def Resolvers.AddResolvers (r : Resolvers) (qps : Int) (addrs : List String) : Resolvers :=
  addrs.foldl (fun pool addr => pool.addResolver qps addr) r

/-- The method `Resolvers.SetTimeout`, in seconds. -/
def Resolvers.SetTimeout (r : Resolvers) (seconds : Nat) : Resolvers :=
  { r with timeoutSeconds := seconds }

/-- The method `Resolvers.SetDetectionResolver`: the detector is recorded, and it
joins the resolvers of the pool when its IP is not among them yet. -/
def Resolvers.SetDetectionResolver (r : Resolvers) (qps : Int) (addr : String) : Resolvers :=
  { r.addResolver qps addr with detection := some (qps, addr) }

/-- The method `Resolvers.SetThresholdOptions`. -/
def Resolvers.SetThresholdOptions (r : Resolvers) (o : ThresholdOptions) : Resolvers :=
  { r with threshold := some o }

/-- The method `Resolvers.ClientSubnetCheck`. -/
def Resolvers.ClientSubnetCheck (r : Resolvers) : Resolvers :=
  { r with subnetCheck := true }

/-- The method `Resolvers.SetRateTracker`, called through a pointer: it stores the
tracker in the pool, and a nil pool is a nil dereference. -/
def SetRateTracker (r : Option Resolvers) (rt : RateTracker) : Except Fault (Option Resolvers) :=
  match r with
  | none => .error Fault.nilDereference
  | some p => .ok (some { p with rateTracker := some rt })

/-- The function `trustedResolvers`. -/
def trustedResolvers (d : Deps) : Option Resolvers × Nat :=
  let blr := d.Shuffle baselineResolvers
  match d.NewResolvers with
  | some pool =>
    let pool := blr.foldl (fun pool r => pool.AddResolvers r.qps [r.address]) pool
    let pool := pool.SetTimeout 3
    let pool := pool.SetDetectionResolver 50 "8.8.8.8"
    (some pool, pool.Len)
  | none => (none, 0)

/-- The function `untrustedResolvers`, given the outcome of the web request. -/
def untrustedResolvers (d : Deps) (fetch : Except String Response) :
    Except Fault (Option Resolvers × Nat) :=
  match publicDNSResolvers d fetch with
  | .error f => .error f
  | .ok (.error _) => .ok (none, 0)
  | .ok (.ok resolvers) =>
    let resolvers := checkAddresses d (Deduplicate resolvers)
    if resolvers.length = 0 then .ok (none, 0)
    else
      match d.NewResolvers with
      | some pool =>
        let pool := pool.AddResolvers queriesPerPublicResolver resolvers
        let pool := pool.SetTimeout 5
        let pool := pool.SetDetectionResolver 50 "8.8.8.8"
        let pool := pool.SetThresholdOptions
          { ThresholdValue := 20, CountTimeouts := true, CountFormatErrors := true,
            CountServerFailures := true, CountNotImplemented := true,
            CountQueryRefusals := true }
        let pool := pool.ClientSubnetCheck
        .ok (some pool, pool.Len)
      | none => .ok (none, 0)

/-- What the guess pipeline reads of a session: whether the cache holds the FQDN
asset of a name, and what `Done` answers at its successive polls. -/
structure Session where
  cached : String → Bool
  Done : Nat → Bool

/-- The part of `et.Event` that the guess pipeline reads. -/
structure Event where
  Session : Session

/-- The type `guess`. -/
structure guess where
  event : Event
  name : String

/-- An element of the queue `guesses`, a value of type `interface{}`: a non-nil
pointer to a guess, a nil pointer to a guess, or a value of another type. -/
inductive QueueItem where
  | guessPtr (g : guess)
  | nilGuessPtr
  | other

/-- The package variables: the two pools, the queue `guesses` (nil until created)
and whether the goroutine `processGuesses` has been started. -/
structure Package extends Pools where
  guesses : Option (List QueueItem)
  dispatching : Bool

/-- The function `init`, given the outcome of the web request. -/
def init (d : Deps) (fetch : Except String Response) : Except Fault Package :=
  let rate : RateTracker := ⟨0⟩
  match SetRateTracker (trustedResolvers d).1 rate with
  | .error f => .error f
  | .ok trusted =>
    match untrustedResolvers d fetch with
    | .error f => .error f
    | .ok (untrusted, _) =>
      match SetRateTracker untrusted rate with
      | .error f => .error f
      | .ok untrusted =>
        if untrusted.isSome then
          .ok { trusted := trusted, untrusted := untrusted, guesses := some [],
                dispatching := true }
        else
          .ok { trusted := trusted, untrusted := untrusted, guesses := none,
                dispatching := false }

/-- The function `SubmitFQDNGuess`. -/
def SubmitFQDNGuess (s : Package) (e : Event) (name : String) : Except Fault Package :=
  if s.untrusted.isSome then
    match s.guesses with
    | none => .error Fault.nilDereference
    | some q => .ok { s with guesses := some (q ++ [QueueItem.guessPtr { event := e, name := name }]) }
  else .ok s

/-! ## The guess pipeline -/

/-- What a run of `guessAttempt` does, in order: an untrusted query, a call of
`guessCallback`, the token given back to the channel. -/
inductive Effect where
  | query (name : String) (qtype : Nat)
  | callback (name : String)
  | release
deriving DecidableEq, Repr

/-- The outcome of a run of `guessAttempt`: its effects, the panic that ended it
if there was one, and the engine call counter. -/
structure Run where
  effects : List Effect
  fault : Option Fault
  calls : Nat
deriving DecidableEq, Repr

/-- The loop of `guessAttempt` over the record types still to query, at poll `i`
of the session. -/
def guessLoop (d : Deps) (g : Pools) (e : Event) (name : String) :
    List Nat → Nat → Nat → Run
  | [], _, calls => { effects := [], fault := none, calls := calls }
  | qtype :: rest, i, calls =>
    if e.Session.Done i then { effects := [], fault := none, calls := calls }
    else
      match PerformUntrustedQuery d g name qtype calls with
      | (.error f, calls1) =>
        { effects := [Effect.query name qtype], fault := some f, calls := calls1 }
      | (.ok (ans, err), calls1) =>
        let hit : List Effect :=
          if err = none ∧ ans ≠ none then [Effect.callback name] else []
        let next := guessLoop d g e name rest (i + 1) calls1
        { next with effects := Effect.query name qtype :: hit ++ next.effects }

/-- The function `guessAttempt`: the deferred function gives the token back at the
end of every run. -/
def guessAttempt (d : Deps) (g : Pools) (e : Event) (name : String) (calls : Nat) : Run :=
  if e.Session.cached name then
    { effects := [Effect.release], fault := none, calls := calls }
  else
    let run := guessLoop d g e name [TypeCNAME, TypeA, TypeAAAA] 0 calls
    { run with effects := run.effects ++ [Effect.release] }

/-- A state of the guess pipeline: the tokens in the channel, the `guessAttempt`
goroutines started and not yet finished, and the queue. -/
structure Pipeline where
  free : Nat
  running : Nat
  queue : List QueueItem

/-- The pipeline when `processGuesses` enters its loop: `num` tokens, no job. -/
def Pipeline.start (num : Nat) : Pipeline := { free := num, running := 0, queue := [] }

/-- The steps of the guess pipeline with a channel of capacity `num`.
* `submit`: `SubmitFQDNGuess` appends a guess to the queue.
* `dispatch`: the loop takes the first element and a token, and starts
  `guessAttempt` on it, the element being a non-nil guess.
* `discard`: the loop takes the first element and a token, and starts nothing, the
  element not being a non-nil guess.
* `finish`: a `guessAttempt` ends and its deferred function puts a token into the
  channel, which has room for it. -/
inductive Step (num : Nat) : Pipeline → Pipeline → Prop where
  | submit (s : Pipeline) (e : Event) (name : String) :
      Step num s { s with queue := s.queue ++ [QueueItem.guessPtr { event := e, name := name }] }
  | dispatch (free running : Nat) (g : guess) (rest : List QueueItem) :
      Step num { free := free + 1, running := running, queue := QueueItem.guessPtr g :: rest }
        { free := free, running := running + 1, queue := rest }
  | discard (free running : Nat) (item : QueueItem) (rest : List QueueItem) :
      (∀ g, item ≠ QueueItem.guessPtr g) →
      Step num { free := free + 1, running := running, queue := item :: rest }
        { free := free, running := running, queue := rest }
  | finish (free running : Nat) (queue : List QueueItem) :
      free < num →
      Step num { free := free, running := running + 1, queue := queue }
        { free := free + 1, running := running, queue := queue }

/-- The states that the pipeline reaches from its start. -/
inductive Reachable (num : Nat) : Pipeline → Prop where
  | start : Reachable num (Pipeline.start num)
  | step (s t : Pipeline) : Reachable num s → Step num s t → Reachable num t

/-- The start of `processGuesses`: nothing without an untrusted pool, otherwise a
channel filled with as many tokens as the pool has resolvers. -/
def processGuesses (s : Package) : Option Pipeline :=
  match s.untrusted with
  | none => none
  | some pool => some (Pipeline.start pool.Len)

/-! ## Classification of one engine outcome, and sample environments -/

/-- The outcome is a transport error (`err != nil`). -/
def isTransportError : Except String Msg → Bool
  | .error _ => true
  | .ok _ => false

/-- The outcome makes the loop of `dnsQuery` go on: a transport error, or a
response whose rcode is neither success nor NXDOMAIN. -/
def isRetried : Except String Msg → Bool
  | .error _ => true
  | .ok resp => decide (resp.Rcode ≠ RcodeNameError) && decide (resp.Rcode ≠ RcodeSuccess)

/-- The pieces of a character list between the occurrences of a separator. -/
def splitChars (sep : Char) : List Char → List (List Char)
  | [] => [[]]
  | c :: cs =>
    if c = sep then [] :: splitChars sep cs
    else
      match splitChars sep cs with
      | [] => [[c]]
      | h :: t => (c :: h) :: t

/-- A sample of `resolve.ExtractAnswers`: one answer per record whose data has a
textual form, with the owner name lower-cased and stripped of its last dot. -/
def sampleExtractAnswers (m : Msg) : List ExtractedAnswer :=
  (m.Answer.filter (fun a => a.Rdata ≠ "")).map
    (fun a => { Name := ToLower (RemoveLastDot a.Name), RType := a.Rrtype,
                Data := TrimSpace a.Rdata })

/-- A sample of `publicsuffix.EffectiveTLDPlusOne` for names under a suffix that is
not in the list: the last two labels of the name. -/
def sampleEffectiveTLDPlusOne (name : String) : Except String String :=
  match (splitChars '.' name.data).reverse with
  | tld :: sld :: _ =>
    if tld = [] ∨ sld = [] then .error "empty label" else .ok (String.mk (sld ++ '.' :: tld))
  | _ => .error "cannot derive eTLD+1"

/-- One octet of a dotted quad: one to three digits, no leading zero, at most 255. -/
def isOctet (cs : List Char) : Bool :=
  cs ≠ [] && cs.length ≤ 3 && cs.all Char.isDigit &&
  (cs.length = 1 || cs.head? ≠ some '0') &&
  decide (cs.foldl (fun acc c => 10 * acc + (c.toNat - 48)) 0 ≤ 255)

/-- A sample of `net.ParseIP` that knows the dotted-quad IPv4 literals only. -/
def sampleParseIP (s : String) : Bool :=
  match splitChars '.' s.data with
  | [a, b, c, e] => isOctet a && isOctet b && isOctet c && isOctet e
  | _ => false

/-- A pool without configuration that answers by the given script and detector. -/
def scriptedPool (script : Nat → Option Msg → Except String Msg)
    (wildcard : Msg → String → Bool) : Resolvers where
  servers := []
  timeoutSeconds := 0
  detection := none
  threshold := none
  subnetCheck := false
  rateTracker := none
  QueryBlocking := script
  WildcardDetected := wildcard

/-- The value of a run of decimal digits. -/
def digitsValue (cs : List Char) : Nat :=
  cs.foldl (fun acc c => 10 * acc + (c.toNat - 48)) 0

/-- A sample of `strconv.ParseFloat` that knows the plain decimal literals only:
an optional sign, digits, and at most one decimal point. -/
def sampleParseFloat (s : String) : Option Decimal :=
  let signed : Bool × List Char :=
    match s.data with
    | '-' :: r => (true, r)
    | '+' :: r => (false, r)
    | r => (false, r)
  match splitChars '.' signed.2 with
  | [ip] =>
    if ip ≠ [] ∧ ip.all Char.isDigit then some ⟨signed.1, digitsValue ip, 0⟩ else none
  | [ip, fp] =>
    if (ip ≠ [] ∨ fp ≠ []) ∧ ip.all Char.isDigit ∧ fp.all Char.isDigit then
      some ⟨signed.1, digitsValue (ip ++ fp), fp.length⟩
    else none
  | _ => none

/-- A sample environment: forward queries ask for the name with a final dot. -/
def sampleDeps : Deps where
  QueryMsg := fun name qtype =>
    some { Rcode := 0, Question := [{ Name := name ++ ".", Qtype := qtype }], Answer := [] }
  ReverseMsg := fun _ => none
  ExtractAnswers := sampleExtractAnswers
  EffectiveTLDPlusOne := sampleEffectiveTLDPlusOne
  ParseIP := sampleParseIP
  ParseFloat := sampleParseFloat
  NewResolvers := some (scriptedPool (fun _ _ => .error "timeout") (fun _ _ => false))
  Shuffle := fun blr => blr

/-- A response to the question `name qtype` with the given rcode and answers. -/
def response (rcode : Int) (name : String) (qtype : Nat) (answer : List RR) : Msg :=
  { Rcode := rcode, Question := [{ Name := name, Qtype := qtype }], Answer := answer }

/-- A pool whose first `n` calls fail with a transport error and whose later
calls all return `resp`. -/
def failingThen (n : Nat) (resp : Msg) (wildcard : Msg → String → Bool) : Resolvers :=
  scriptedPool (fun i _ => if i < n then .error "timeout" else .ok resp) wildcard

/-- A pool whose every call fails with a transport error. -/
def alwaysFailing : Resolvers :=
  scriptedPool (fun _ _ => .error "timeout") (fun _ _ => false)

/-- A pool that answers every call with NXDOMAIN for `missing.example.test`. -/
def nxdomainPool : Resolvers :=
  failingThen 0 (response RcodeNameError "missing.example.test." TypeA []) (fun _ _ => false)

/-- The address record `sub.example.test. A 192.0.2.1`. -/
def sampleRecord : RR := { Name := "sub.example.test.", Rrtype := TypeA, Rdata := "192.0.2.1" }

/-- The successful response to the A query for `sub.example.test`, with one A record. -/
def sampleAnswer : Msg := response RcodeSuccess "sub.example.test." TypeA [sampleRecord]

/-- A pool failing transport-wise on its first 49 calls and answering on the 50th. -/
def lastChancePool : Resolvers := failingThen 49 sampleAnswer (fun _ _ => false)

/-- The alias record `www.example.test. CNAME host.example.test.`. -/
def aliasRecord : RR :=
  { Name := "www.example.test.", Rrtype := TypeCNAME, Rdata := "host.example.test." }

/-- A successful response to the A query for `www.example.test` whose answer
section holds the alias record only. -/
def aliasOnlyAnswer : Msg := response RcodeSuccess "www.example.test." TypeA [aliasRecord]

/-- A pool that answers every call with `aliasOnlyAnswer`. -/
def aliasOnlyPool : Resolvers := failingThen 0 aliasOnlyAnswer (fun _ _ => false)

/-- A pool that answers every call with `sampleAnswer` and whose wildcard
detector flags the domain `example.test`. -/
def wildcardPool : Resolvers :=
  failingThen 0 sampleAnswer (fun _ dom => dom = "example.test")

/-- The columns `(ipIdx, reliabilityIdx)` that `publicDNSResolvers` reads in the data
rows: those found in the first read when it is a record, `(0, 0)` otherwise. -/
def headerIndexes (body : List ReadResult) : Nat × Nat :=
  match body with
  | .ok header :: _ => scanHeader header 0 (0, 0)
  | _ => (0, 0)

/-- The row is a record whose field in column `reliabilityIdx` is not read as a
number, or is read as a number below `minResolverReliability`. -/
def isRejectedRow (d : Deps) (reliabilityIdx : Nat) (row : ReadResult) : Prop :=
  ∃ record field, row = .ok record ∧ record[reliabilityIdx]? = some field ∧
    (d.ParseFloat field = none ∨
      ∃ rel, d.ParseFloat field = some rel ∧ rel.ge minResolverReliability = false)

/-- A two-column list of public resolvers with one data row. -/
def oneRowList (address reliability : String) : Except String Response :=
  .ok { StatusCode := 200, Body := [.ok ["ip_address", "reliability"], .ok [address, reliability]] }

/-- A session that is never cancelled, with the given cache. -/
def liveSession (cached : String → Bool) : Session := { cached := cached, Done := fun _ => false }

/-- An event of a live session whose cache holds `known.example.test` only. -/
def sampleEvent : Event := { Session := liveSession (fun name => name = "known.example.test") }

/-- The guess for `new.example.test` made in `sampleEvent`. -/
def sampleGuess : guess := { event := sampleEvent, name := "new.example.test" }

/-- A pipeline of two tokens after one guess was submitted and dispatched. -/
def oneJobRunning : Pipeline := { free := 1, running := 1, queue := [] }

/-- The calls of `guessCallback` that follow a query with result `r`: one when the
test `err == nil && ans != nil` of `guessAttempt` holds, none otherwise. -/
def callbackOn (name : String) (r : QueryResult) : List Effect :=
  if r.2 = none ∧ r.1 ≠ none then [Effect.callback name] else []

/-- The lower-cased copy of an answer that `normalize` appends. -/
def lowerAnswer (rr : ExtractedAnswer) : ExtractedAnswer :=
  { Name := ToLower rr.Name, RType := rr.RType, Data := ToLower rr.Data }

/-- A session that `Done` reports cancelled from its poll `n` on. -/
def cancelledFrom (n : Nat) : Session :=
  { cached := fun _ => false, Done := fun i => decide (n ≤ i) }

/-- A pool that answers every call with `sampleAnswer` and flags no domain. -/
def answeringPool : Resolvers := failingThen 0 sampleAnswer (fun _ _ => false)

/-- The entry that one input address contributes to the result of `checkAddresses`,
if any. -/
def entryOf (d : Deps) (addr : String) : Option String :=
  if d.ParseIP (hostAndPort addr).1 then
    some (JoinHostPort (hostAndPort addr).1 (hostAndPort addr).2)
  else none

/-- The record whose column `k` is the column `p[k]` of the given record: the
columns rearranged by `p`. -/
def permute (p : List Nat) (record : List String) : List String :=
  p.map (fun j => record.getD j "")

/-- The rearrangement of the columns applied to one read: a record is rearranged, a
parse error stays. -/
def permuteRead (p : List Nat) : ReadResult → ReadResult
  | .ok record => .ok (permute p record)
  | .error e => .error e

/-- The pool that answers as `p` does, except that a response whose rcode is neither
success nor NXDOMAIN is replaced by a transport error. -/
def asTransportErrors (p : Resolvers) : Resolvers :=
  { p with
    QueryBlocking := fun n msg =>
      match p.QueryBlocking n msg with
      | .error e => .error e
      | .ok resp =>
        if resp.Rcode = RcodeNameError ∨ resp.Rcode = RcodeSuccess then .ok resp
        else .error "rcode" }

/-- A pool that answers every call with the rcode SERVFAIL (2). -/
def servfailPool : Resolvers :=
  failingThen 0 (response 2 "sub.example.test." TypeA []) (fun _ _ => false)

/-- A response without a question section. -/
def noQuestionAnswer : Msg := { Rcode := RcodeSuccess, Question := [], Answer := [sampleRecord] }

/-- A pool that answers the A query for `www.example.test` with an alias record and
the address record of `HOST.Example.Test`. -/
def mixedCasePool : Resolvers :=
  failingThen 0
    (response RcodeSuccess "www.example.test." TypeA
      [aliasRecord, { Name := "HOST.Example.Test.", Rrtype := TypeA, Rdata := " 192.0.2.1 " }])
    (fun _ _ => false)

/-- The result is a success: non-empty answers and a nil error. -/
def isSuccess (res : QueryResult) : Prop := ∃ l, l ≠ [] ∧ res = (some l, none)

/-- The result is an explicit failure: nil answers and a non-nil error. -/
def isFailure (res : QueryResult) : Prop := ∃ e, res = (none, some e)

/-- The result is indeterminate: nil answers and a nil error. -/
def isIndeterminate (res : QueryResult) : Prop := res = (none, none)

/-- A pool that answers every call with `noQuestionAnswer`. -/
def noQuestionPool : Resolvers := failingThen 0 noQuestionAnswer (fun _ _ => false)

/-! ## The retry loop -/

theorem dnsQueryLoop_skip (msg : Option Msg) (p : Resolvers) :
    ∀ (n left c : Nat),
      (∀ i, i < n → isRetried (p.QueryBlocking (c + i) msg) = true) →
      dnsQueryLoop msg (some p) (n + left) c = dnsQueryLoop msg (some p) left (c + n) := by
  intro n
  induction n with
  | zero => intro left c _; simp
  | succ n ih =>
    intro left c h
    have h0 : isRetried (p.QueryBlocking c msg) = true := by simpa using h 0 (Nat.succ_pos n)
    have hrest : ∀ i, i < n → isRetried (p.QueryBlocking (c + 1 + i) msg) = true := by
      intro i hi
      have := h (i + 1) (Nat.succ_lt_succ hi)
      simpa [Nat.add_assoc, Nat.add_comm 1 i] using this
    have hstep : dnsQueryLoop msg (some p) (n + left + 1) c
        = dnsQueryLoop msg (some p) (n + left) (c + 1) := by
      rw [dnsQueryLoop]
      cases hq : p.QueryBlocking c msg with
      | error e => simp
      | ok resp =>
        rw [hq] at h0
        simp only [isRetried, Bool.and_eq_true, decide_eq_true_eq] at h0
        simp [h0.1, h0.2]
    have e1 : n + 1 + left = n + left + 1 := by omega
    have e2 : c + (n + 1) = c + 1 + n := by omega
    rw [e1, hstep, ih left (c + 1) hrest, e2]

theorem dnsQueryLoop_calls_le (msg : Option Msg) (r : Option Resolvers) :
    ∀ (left c : Nat),
      c ≤ (dnsQueryLoop msg r left c).2 ∧ (dnsQueryLoop msg r left c).2 ≤ c + left := by
  intro left
  induction left with
  | zero => intro c; simp [dnsQueryLoop]
  | succ left ih =>
    intro c
    have := ih (c + 1)
    cases r with
    | none => simp [dnsQueryLoop]
    | some p =>
      rw [dnsQueryLoop]
      cases hq : p.QueryBlocking c msg with
      | error e => simp only; omega
      | ok resp =>
        simp only
        split_ifs <;> first | (simp only; omega) | omega

theorem isRetried_of_isTransportError {x : Except String Msg}
    (h : isTransportError x = true) : isRetried x = true := by
  cases x with
  | error e => rfl
  | ok m => simp [isTransportError] at h

/-- After `n` retried attempts within the budget the loop stands at attempt `n + 1`. -/
theorem dnsQuery_reach (msg : Option Msg) (p : Resolvers) (attempts : Int) (c n : Nat)
    (hbudget : (n : Int) < attempts)
    (hretry : ∀ i, i < n → isRetried (p.QueryBlocking (c + i) msg) = true) :
    dnsQuery msg (some p) attempts c
      = dnsQueryLoop msg (some p) (attempts.toNat - n - 1 + 1) (c + n) := by
  have hn : n < attempts.toNat := by omega
  have e : attempts.toNat = n + (attempts.toNat - n - 1 + 1) := by omega
  unfold dnsQuery
  conv_lhs => rw [e]
  exact dnsQueryLoop_skip msg p n _ c hretry

theorem dnsQueryLoop_nameError (msg : Option Msg) (p : Resolvers) (left c : Nat) (resp : Msg)
    (hresp : p.QueryBlocking c msg = .ok resp) (hrcode : resp.Rcode = RcodeNameError) :
    dnsQueryLoop msg (some p) (left + 1) c
      = (.ok (none, some "name does not exist"), c + 1) := by
  rw [dnsQueryLoop, hresp]
  simp [hrcode]

theorem dnsQueryLoop_success (msg : Option Msg) (p : Resolvers) (left c : Nat) (resp : Msg)
    (hresp : p.QueryBlocking c msg = .ok resp) (hrcode : resp.Rcode = RcodeSuccess)
    (hans : resp.Answer ≠ []) :
    dnsQueryLoop msg (some p) (left + 1) c = (.ok (some resp, none), c + 1) := by
  rw [dnsQueryLoop, hresp]
  have h3 : ¬ resp.Rcode = RcodeNameError := by rw [hrcode]; decide
  simp [hrcode, h3, hans]
  intro h; exact absurd h (by decide)

theorem dnsQueryLoop_noData (msg : Option Msg) (p : Resolvers) (left c : Nat) (resp : Msg)
    (hresp : p.QueryBlocking c msg = .ok resp) (hrcode : resp.Rcode = RcodeSuccess)
    (hans : resp.Answer = []) :
    dnsQueryLoop msg (some p) (left + 1) c
      = (.ok (none, some "no record of this type"), c + 1) := by
  rw [dnsQueryLoop, hresp]
  have h3 : ¬ resp.Rcode = RcodeNameError := by rw [hrcode]; decide
  simp [hrcode, h3, hans]
  intro h; exact absurd h (by decide)

theorem dnsQuery_exhausted (msg : Option Msg) (p : Resolvers) (attempts c : Nat)
    (hretry : ∀ i, i < attempts → isRetried (p.QueryBlocking (c + i) msg) = true) :
    dnsQuery msg (some p) (attempts : Int) c = (.ok (none, none), c + attempts) := by
  unfold dnsQuery
  have := dnsQueryLoop_skip msg p attempts 0 c hretry
  simpa [dnsQueryLoop] using this

theorem filterAnswers_of_error (d : Deps) (r : Option Resolvers) (qtype : Nat)
    (resp : Option Msg) (e : String) :
    filterAnswers d r qtype (resp, some e) = .ok (none, some e) := by
  cases resp <;> rfl

theorem filterAnswers_of_nil (d : Deps) (r : Option Resolvers) (qtype : Nat) :
    filterAnswers d r qtype (none, none) = .ok (none, none) := rfl

theorem performOn_of_dnsQuery (d : Deps) (r : Option Resolvers) (name : String)
    (qtype c c1 : Nat) (res : DnsResult)
    (h : dnsQuery (queryMessage d name qtype) r 50 c = (.ok res, c1)) :
    performOn d r name qtype c = (filterAnswers d r qtype res, c1) := by
  simp [performOn, h]

/-- C1. When the attempts before the `k`-th are retried and the `k`-th attempt, within
the budget, returns a response with rcode NXDOMAIN, `dnsQuery` returns no response
together with the error "name does not exist" after exactly `k` engine calls; with
the budget of 50 so do `PerformQuery` and `PerformUntrustedQuery`.  The case `k = 1`
is the NXDOMAIN answer to the first attempt. -/
theorem nxdomain_is_terminal (d : Deps) (p : Resolvers) (other : Option Resolvers)
    (name : String) (qtype : Nat) (msg : Option Msg) (attempts : Int) (c k : Nat) (resp : Msg)
    (hk : 1 ≤ k) (hbudget : (k : Int) ≤ attempts)
    (hretry : ∀ i, i + 1 < k → isRetried (p.QueryBlocking (c + i) msg) = true)
    (hresp : p.QueryBlocking (c + (k - 1)) msg = .ok resp)
    (hrcode : resp.Rcode = RcodeNameError) :
    dnsQuery msg (some p) attempts c = (.ok (none, some "name does not exist"), c + k) ∧
    (attempts = 50 → msg = queryMessage d name qtype →
      PerformQuery d ⟨some p, other⟩ name qtype c
        = (.ok (none, some "name does not exist"), c + k) ∧
      PerformUntrustedQuery d ⟨other, some p⟩ name qtype c
        = (.ok (none, some "name does not exist"), c + k)) := by
  have hq : dnsQuery msg (some p) attempts c
      = (.ok (none, some "name does not exist"), c + k) := by
    rw [dnsQuery_reach msg p attempts c (k - 1) (by omega) (fun i hi => hretry i (by omega)),
      dnsQueryLoop_nameError msg p _ _ resp hresp hrcode]
    congr 1; omega
  refine ⟨hq, ?_⟩
  intro ha hm
  subst ha; subst hm
  constructor
  · simp only [PerformQuery]
    rw [performOn_of_dnsQuery d _ name qtype c _ _ hq, filterAnswers_of_error]
  · simp only [PerformUntrustedQuery]
    rw [performOn_of_dnsQuery d _ name qtype c _ _ hq, filterAnswers_of_error]

/-- An engine answering NXDOMAIN at once costs one call and yields the error. -/
theorem nxdomain_is_terminal_witness :
    nxdomainPool.QueryBlocking 0 (queryMessage sampleDeps "missing.example.test" TypeA)
      = .ok (response RcodeNameError "missing.example.test." TypeA []) ∧
    dnsQuery (queryMessage sampleDeps "missing.example.test" TypeA) (some nxdomainPool) 50 0
      = (.ok (none, some "name does not exist"), 1) ∧
    PerformQuery sampleDeps ⟨some nxdomainPool, none⟩ "missing.example.test" TypeA 0
      = (.ok (none, some "name does not exist"), 1) ∧
    PerformUntrustedQuery sampleDeps ⟨none, some nxdomainPool⟩ "missing.example.test" TypeA 0
      = (.ok (none, some "name does not exist"), 1) :=
  have h := nxdomain_is_terminal sampleDeps nxdomainPool none "missing.example.test" TypeA
    (queryMessage sampleDeps "missing.example.test" TypeA) 50 0 1
    (response RcodeNameError "missing.example.test." TypeA [])
    (by decide) (by decide) (fun i hi => absurd hi (by omega)) rfl rfl
  ⟨rfl, h.1, h.2 rfl rfl⟩

/-- C2. For `1 ≤ k ≤ 50`, transport errors on the attempts before the `k`-th and, on
the `k`-th, a response with rcode success and at least one answer record make
`dnsQuery` with budget 50 return exactly that response with a nil error after
exactly `k` engine calls. -/
theorem success_after_transport_errors (p : Resolvers) (msg : Option Msg) (c k : Nat)
    (resp : Msg) (hk : 1 ≤ k) (hbudget : k ≤ 50)
    (herr : ∀ i, i + 1 < k → isTransportError (p.QueryBlocking (c + i) msg) = true)
    (hresp : p.QueryBlocking (c + (k - 1)) msg = .ok resp)
    (hrcode : resp.Rcode = RcodeSuccess) (hans : 1 ≤ resp.Answer.length) :
    dnsQuery msg (some p) 50 c = (.ok (some resp, none), c + k) := by
  have hne : resp.Answer ≠ [] := by
    intro h; rw [h] at hans; simp at hans
  rw [dnsQuery_reach msg p 50 c (k - 1) (by omega)
      (fun i hi => isRetried_of_isTransportError (herr i (by omega))),
    dnsQueryLoop_success msg p _ _ resp hresp hrcode hne]
  congr 1; omega

/-- Transport errors on attempts 1 to 49 and a valid answer on attempt 50: success
after 50 calls. -/
theorem success_after_transport_errors_witness :
    (∀ i, i + 1 < 50 → isTransportError (lastChancePool.QueryBlocking (0 + i)
        (queryMessage sampleDeps "sub.example.test" TypeA)) = true) ∧
    dnsQuery (queryMessage sampleDeps "sub.example.test" TypeA) (some lastChancePool) 50 0
      = (.ok (some sampleAnswer, none), 50) :=
  have herr : ∀ i, i + 1 < 50 → isTransportError (lastChancePool.QueryBlocking (0 + i)
      (queryMessage sampleDeps "sub.example.test" TypeA)) = true := by
    intro i hi
    have h49 : i < 49 := by omega
    simp [lastChancePool, failingThen, scriptedPool, isTransportError, h49]
  ⟨herr, success_after_transport_errors lastChancePool
    (queryMessage sampleDeps "sub.example.test" TypeA) 0 50 sampleAnswer
    (by decide) (by decide) herr rfl rfl (by decide)⟩

theorem performOn_calls (d : Deps) (r : Option Resolvers) (name : String) (qtype c : Nat) :
    (performOn d r name qtype c).2 = (dnsQuery (queryMessage d name qtype) r 50 c).2 := by
  unfold performOn
  cases h : dnsQuery (queryMessage d name qtype) r 50 c with
  | mk res c1 => cases res <;> rfl

theorem performOn_calls_le (d : Deps) (r : Option Resolvers) (name : String) (qtype c : Nat) :
    c ≤ (performOn d r name qtype c).2 ∧ (performOn d r name qtype c).2 ≤ c + 50 := by
  rw [performOn_calls]
  exact dnsQueryLoop_calls_le _ r 50 c

theorem performOn_exhausted (d : Deps) (p : Resolvers) (name : String) (qtype c : Nat)
    (herr : ∀ i, i < 50 →
      isTransportError (p.QueryBlocking (c + i) (queryMessage d name qtype)) = true) :
    performOn d (some p) name qtype c = (.ok (none, none), c + 50) := by
  have hq := dnsQuery_exhausted (queryMessage d name qtype) p 50 c
    (fun i hi => isRetried_of_isTransportError (herr i hi))
  rw [performOn_of_dnsQuery d _ name qtype c _ _ hq, filterAnswers_of_nil]

/-- C3. When each of the 50 attempts fails with a transport error, `PerformQuery` and
`PerformUntrustedQuery` return the indeterminate result (nil answers, nil error) after
exactly 50 engine calls; and whatever the engine does, one `PerformQuery` or
`PerformUntrustedQuery` makes at most 50 engine calls. -/
theorem exhaustion_is_indeterminate :
    (∀ (d : Deps) (p : Resolvers) (other : Option Resolvers) (name : String) (qtype c : Nat),
      (∀ i, i < 50 →
        isTransportError (p.QueryBlocking (c + i) (queryMessage d name qtype)) = true) →
      PerformQuery d ⟨some p, other⟩ name qtype c = (.ok (none, none), c + 50) ∧
      PerformUntrustedQuery d ⟨other, some p⟩ name qtype c = (.ok (none, none), c + 50)) ∧
    (∀ (d : Deps) (g : Pools) (name : String) (qtype c : Nat),
      (c ≤ (PerformQuery d g name qtype c).2 ∧ (PerformQuery d g name qtype c).2 ≤ c + 50) ∧
      (c ≤ (PerformUntrustedQuery d g name qtype c).2 ∧
        (PerformUntrustedQuery d g name qtype c).2 ≤ c + 50)) := by
  constructor
  · intro d p other name qtype c herr
    exact ⟨performOn_exhausted d p name qtype c herr, performOn_exhausted d p name qtype c herr⟩
  · intro d g name qtype c
    exact ⟨performOn_calls_le d g.trusted name qtype c,
      performOn_calls_le d g.untrusted name qtype c⟩

/-- An engine that always fails transport-wise: 50 calls, no answers, no error. -/
theorem exhaustion_is_indeterminate_witness :
    (∀ i, i < 50 → isTransportError (alwaysFailing.QueryBlocking (0 + i)
        (queryMessage sampleDeps "sub.example.test" TypeA)) = true) ∧
    PerformQuery sampleDeps ⟨some alwaysFailing, none⟩ "sub.example.test" TypeA 0
      = (.ok (none, none), 50) ∧
    PerformUntrustedQuery sampleDeps ⟨none, some alwaysFailing⟩ "sub.example.test" TypeA 0
      = (.ok (none, none), 50) :=
  ⟨fun _ _ => rfl,
    exhaustion_is_indeterminate.1 sampleDeps alwaysFailing none "sub.example.test" TypeA 0
      (fun _ _ => rfl)⟩

/-! ## What becomes of the response of `dnsQuery` -/

theorem wildcardDetected_isOk (d : Deps) (resp : Msg) (p : Resolvers)
    (hq : resp.Question ≠ []) : ∃ b, wildcardDetected d resp (some p) = .ok b := by
  unfold wildcardDetected
  cases hQ : resp.Question with
  | nil => exact absurd hQ hq
  | cons q rest =>
    simp only
    cases d.EffectiveTLDPlusOne (ToLower (RemoveLastDot q.Name)) with
    | error e => exact ⟨false, rfl⟩
    | ok dom =>
      by_cases hd : dom = ""
      · exact ⟨false, by simp [hd]⟩
      · exact ⟨p.WildcardDetected resp dom, by simp [hd]⟩

theorem filterAnswers_no_match (d : Deps) (p : Resolvers) (qtype : Nat) (resp : Msg)
    (hq : resp.Question ≠ [])
    (hzero : AnswersByType (d.ExtractAnswers resp) qtype = []) :
    filterAnswers d (some p) qtype (some resp, none) = .ok (none, none) := by
  obtain ⟨b, hb⟩ := wildcardDetected_isOk d resp p hq
  simp only [filterAnswers, hb]
  cases b with
  | true => rfl
  | false => simp [hzero]

/-- C4, as stated, fails: the first response to the A query for `www.example.test`
has rcode success and a non-empty answer section holding a CNAME record only, hence
no record of the requested type, and `PerformQuery` and `PerformUntrustedQuery` stop
after this one call with nil answers and a nil error. -/
theorem other_types_only_counterexample :
    aliasOnlyPool.QueryBlocking 0 (queryMessage sampleDeps "www.example.test" TypeA)
      = .ok aliasOnlyAnswer ∧
    aliasOnlyAnswer.Rcode = RcodeSuccess ∧
    aliasOnlyAnswer.Answer ≠ [] ∧
    (∀ rr ∈ aliasOnlyAnswer.Answer, rr.Rrtype ≠ TypeA) ∧
    AnswersByType (sampleDeps.ExtractAnswers aliasOnlyAnswer) TypeA = [] ∧
    PerformQuery sampleDeps ⟨some aliasOnlyPool, none⟩ "www.example.test" TypeA 0
      = (.ok (none, none), 1) ∧
    PerformUntrustedQuery sampleDeps ⟨none, some aliasOnlyPool⟩ "www.example.test" TypeA 0
      = (.ok (none, none), 1) :=
  ⟨rfl, rfl, by decide, by decide, by decide, rfl, rfl⟩

/-- C4, amended. When the attempts before the `k`-th (`k ≤ 50`) fail with transport
errors and the `k`-th returns a response with rcode success that has no record of the
requested type, `PerformQuery` and `PerformUntrustedQuery` make exactly `k` engine
calls and return nil answers: with the error "no record of this type" when the answer
section is empty, and with a nil error when the answer section is non-empty (for a
response that carries its question). -/
theorem success_without_matching_record (d : Deps) (p : Resolvers) (other : Option Resolvers)
    (name : String) (qtype c k : Nat) (resp : Msg) (hk : 1 ≤ k) (hbudget : k ≤ 50)
    (herr : ∀ i, i + 1 < k →
      isTransportError (p.QueryBlocking (c + i) (queryMessage d name qtype)) = true)
    (hresp : p.QueryBlocking (c + (k - 1)) (queryMessage d name qtype) = .ok resp)
    (hrcode : resp.Rcode = RcodeSuccess)
    (hzero : AnswersByType (d.ExtractAnswers resp) qtype = []) :
    (PerformQuery d ⟨some p, other⟩ name qtype c).2 = c + k ∧
    (PerformUntrustedQuery d ⟨other, some p⟩ name qtype c).2 = c + k ∧
    (resp.Answer = [] →
      PerformQuery d ⟨some p, other⟩ name qtype c
        = (.ok (none, some "no record of this type"), c + k) ∧
      PerformUntrustedQuery d ⟨other, some p⟩ name qtype c
        = (.ok (none, some "no record of this type"), c + k)) ∧
    (resp.Answer ≠ [] → resp.Question ≠ [] →
      PerformQuery d ⟨some p, other⟩ name qtype c = (.ok (none, none), c + k) ∧
      PerformUntrustedQuery d ⟨other, some p⟩ name qtype c = (.ok (none, none), c + k)) := by
  have hreach := dnsQuery_reach (queryMessage d name qtype) p 50 c (k - 1) (by omega)
    (fun i hi => isRetried_of_isTransportError (herr i (by omega)))
  have hck : c + (k - 1) + 1 = c + k := by omega
  have hempty : resp.Answer = [] →
      performOn d (some p) name qtype c
        = (.ok (none, some "no record of this type"), c + k) := by
    intro ha
    have hq : dnsQuery (queryMessage d name qtype) (some p) 50 c
        = (.ok (none, some "no record of this type"), c + k) := by
      rw [hreach, dnsQueryLoop_noData _ p _ _ resp hresp hrcode ha, hck]
    rw [performOn_of_dnsQuery d _ name qtype c _ _ hq, filterAnswers_of_error]
  have hother : resp.Answer ≠ [] → resp.Question ≠ [] →
      performOn d (some p) name qtype c = (.ok (none, none), c + k) := by
    intro ha hq'
    have hq : dnsQuery (queryMessage d name qtype) (some p) 50 c
        = (.ok (some resp, none), c + k) := by
      rw [hreach, dnsQueryLoop_success _ p _ _ resp hresp hrcode ha, hck]
    rw [performOn_of_dnsQuery d _ name qtype c _ _ hq, filterAnswers_no_match d p qtype resp hq' hzero]
  have hcalls : (performOn d (some p) name qtype c).2 = c + k := by
    rw [performOn_calls, hreach]
    by_cases ha : resp.Answer = []
    · rw [dnsQueryLoop_noData _ p _ _ resp hresp hrcode ha, hck]
    · rw [dnsQueryLoop_success _ p _ _ resp hresp hrcode ha, hck]
  exact ⟨hcalls, hcalls, fun ha => ⟨hempty ha, hempty ha⟩,
    fun ha hq => ⟨hother ha hq, hother ha hq⟩⟩

/-- The alias-only response, received at the first attempt. -/
theorem success_without_matching_record_witness :
    aliasOnlyAnswer.Answer ≠ [] ∧ aliasOnlyAnswer.Question ≠ [] ∧
    (PerformQuery sampleDeps ⟨some aliasOnlyPool, none⟩ "www.example.test" TypeA 0).2 = 0 + 1 ∧
    PerformQuery sampleDeps ⟨some aliasOnlyPool, none⟩ "www.example.test" TypeA 0
      = (.ok (none, none), 0 + 1) :=
  have h := success_without_matching_record sampleDeps aliasOnlyPool none "www.example.test"
    TypeA 0 1 aliasOnlyAnswer (by decide) (by decide) (fun i hi => absurd hi (by omega))
    rfl rfl (by decide)
  ⟨by decide, by decide, h.1, (h.2.2.2 (by decide) (by decide)).1⟩

theorem wildcardDetected_of_flagged (d : Deps) (p : Resolvers) (resp : Msg) (q : Question)
    (rest : List Question) (dom : String) (hquestion : resp.Question = q :: rest)
    (hdom : d.EffectiveTLDPlusOne (ToLower (RemoveLastDot q.Name)) = .ok dom)
    (hne : dom ≠ "") :
    wildcardDetected d resp (some p) = .ok (p.WildcardDetected resp dom) := by
  unfold wildcardDetected
  rw [hquestion]
  simp only [hdom]
  simp [hne]

/-- C5. When `dnsQuery` succeeds with a response whose queried name has the
registrable domain `dom` and the wildcard detector of the issuing pool returns true
for `dom`, `PerformQuery` and `PerformUntrustedQuery` return nil answers and a nil
error, whatever records the response holds. -/
theorem flagged_response_is_discarded (d : Deps) (p : Resolvers) (other : Option Resolvers)
    (name : String) (qtype c c1 : Nat) (resp : Msg) (q : Question) (rest : List Question)
    (dom : String)
    (hquery : dnsQuery (queryMessage d name qtype) (some p) 50 c
      = (.ok (some resp, none), c1))
    (hquestion : resp.Question = q :: rest)
    (hdom : d.EffectiveTLDPlusOne (ToLower (RemoveLastDot q.Name)) = .ok dom)
    (hne : dom ≠ "")
    (hwild : p.WildcardDetected resp dom = true) :
    PerformQuery d ⟨some p, other⟩ name qtype c = (.ok (none, none), c1) ∧
    PerformUntrustedQuery d ⟨other, some p⟩ name qtype c = (.ok (none, none), c1) := by
  have hw := wildcardDetected_of_flagged d p resp q rest dom hquestion hdom hne
  rw [hwild] at hw
  have hf : filterAnswers d (some p) qtype (some resp, none) = .ok (none, none) := by
    simp only [filterAnswers, hw]
  have h : performOn d (some p) name qtype c = (.ok (none, none), c1) := by
    rw [performOn_of_dnsQuery d _ name qtype c _ _ hquery, hf]
  exact ⟨h, h⟩

/-- The detector flags `example.test`: the A query for `sub.example.test` returns no
answers although the response holds the A record `192.0.2.1`. -/
theorem flagged_response_is_discarded_witness :
    AnswersByType (sampleDeps.ExtractAnswers sampleAnswer) TypeA
      = [{ Name := "sub.example.test", RType := TypeA, Data := "192.0.2.1" }] ∧
    sampleDeps.EffectiveTLDPlusOne "sub.example.test" = .ok "example.test" ∧
    wildcardPool.WildcardDetected sampleAnswer "example.test" = true ∧
    PerformQuery sampleDeps ⟨some wildcardPool, none⟩ "sub.example.test" TypeA 0
      = (.ok (none, none), 1) ∧
    PerformUntrustedQuery sampleDeps ⟨none, some wildcardPool⟩ "sub.example.test" TypeA 0
      = (.ok (none, none), 1) :=
  ⟨by decide, rfl, by decide,
    flagged_response_is_discarded sampleDeps wildcardPool none "sub.example.test" TypeA 0 1
      sampleAnswer { Name := "sub.example.test.", Qtype := TypeA } [] "example.test"
      rfl rfl rfl (by decide) (by decide)⟩

/-! ## The public resolver list -/

theorem readRows_data_index (d : Deps) (ipIdx reliabilityIdx : Nat) :
    ∀ (rest : List ReadResult) (i j : Nat) (acc : List String), 0 < i → 0 < j →
      readRows d rest i ipIdx reliabilityIdx acc = readRows d rest j ipIdx reliabilityIdx acc := by
  intro rest
  induction rest with
  | nil => intro i j acc _ _; simp [readRows]
  | cons row rest ih =>
    intro i j acc hi hj
    have hi0 : i ≠ 0 := by omega
    have hj0 : j ≠ 0 := by omega
    cases row with
    | error e => simp only [readRows]; exact ih _ _ _ (by omega) (by omega)
    | ok record =>
      simp only [readRows, hi0, hj0, if_false]
      cases record[reliabilityIdx]? with
      | none => rfl
      | some field =>
        simp only
        cases d.ParseFloat field with
        | none => exact ih _ _ _ (by omega) (by omega)
        | some rel =>
          simp only
          split_ifs
          · cases record[ipIdx]? with
            | none => rfl
            | some addr => exact ih _ _ _ (by omega) (by omega)
          · exact ih _ _ _ (by omega) (by omega)

theorem readRows_body (d : Deps) (body : List ReadResult) :
    readRows d body 0 0 0 []
      = readRows d body.tail 1 (headerIndexes body).1 (headerIndexes body).2 [] := by
  cases body with
  | nil => simp [readRows]
  | cons row rest =>
    cases row with
    | error e => simp [readRows, headerIndexes]
    | ok record => simp [readRows, headerIndexes]

theorem readRows_mem (d : Deps) (ipIdx reliabilityIdx : Nat) :
    ∀ (rest : List ReadResult) (i : Nat) (acc rs : List String), 0 < i →
      readRows d rest i ipIdx reliabilityIdx acc = .ok rs →
      ∀ a ∈ rs, a ∈ acc ∨ ∃ record field rel, Except.ok record ∈ rest ∧
        record[reliabilityIdx]? = some field ∧ d.ParseFloat field = some rel ∧
        rel.ge minResolverReliability = true ∧ record[ipIdx]? = some a := by
  intro rest
  induction rest with
  | nil =>
    intro i acc rs _ h a ha
    simp only [readRows, Except.ok.injEq] at h
    subst h; exact Or.inl ha
  | cons row rest ih =>
    intro i acc rs hi h a ha
    have hi0 : i ≠ 0 := by omega
    have lift : (∃ record field rel, Except.ok record ∈ rest ∧
        record[reliabilityIdx]? = some field ∧ d.ParseFloat field = some rel ∧
        rel.ge minResolverReliability = true ∧ record[ipIdx]? = some a) →
        ∃ record field rel, Except.ok record ∈ row :: rest ∧
        record[reliabilityIdx]? = some field ∧ d.ParseFloat field = some rel ∧
        rel.ge minResolverReliability = true ∧ record[ipIdx]? = some a := by
      rintro ⟨record, field, rel, hm, h1, h2, h3, h4⟩
      exact ⟨record, field, rel, List.mem_cons_of_mem _ hm, h1, h2, h3, h4⟩
    cases row with
    | error e =>
      simp only [readRows] at h
      rcases ih _ _ _ (by omega) h a ha with h' | h'
      · exact Or.inl h'
      · exact Or.inr (lift h')
    | ok record =>
      simp only [readRows, hi0, if_false] at h
      cases hf : record[reliabilityIdx]? with
      | none => rw [hf] at h; simp at h
      | some field =>
        rw [hf] at h
        simp only at h
        cases hp : d.ParseFloat field with
        | none =>
          rw [hp] at h
          rcases ih _ _ _ (by omega) h a ha with h' | h'
          · exact Or.inl h'
          · exact Or.inr (lift h')
        | some rel =>
          rw [hp] at h
          simp only at h
          by_cases hge : rel.ge minResolverReliability = true
          · rw [if_pos hge] at h
            cases hip : record[ipIdx]? with
            | none => rw [hip] at h; simp at h
            | some addr =>
              rw [hip] at h
              rcases ih _ _ _ (by omega) h a ha with h' | h'
              · rcases List.mem_append.mp h' with h'' | h''
                · exact Or.inl h''
                · have haddr : a = addr := by simpa using h''
                  subst haddr
                  exact Or.inr ⟨record, field, rel, List.mem_cons_self _ _, hf, hp, hge, hip⟩
              · exact Or.inr (lift h')
          · rw [if_neg hge] at h
            rcases ih _ _ _ (by omega) h a ha with h' | h'
            · exact Or.inl h'
            · exact Or.inr (lift h')

theorem readRows_drop_rejected (d : Deps) (ipIdx reliabilityIdx : Nat) (row : ReadResult)
    (post : List ReadResult) (hrow : isRejectedRow d reliabilityIdx row) :
    ∀ (pre : List ReadResult) (i : Nat) (acc : List String), 0 < i →
      readRows d (pre ++ row :: post) i ipIdx reliabilityIdx acc
        = readRows d (pre ++ post) i ipIdx reliabilityIdx acc := by
  intro pre
  induction pre with
  | nil =>
    intro i acc hi
    have hi0 : i ≠ 0 := by omega
    obtain ⟨record, field, hr, hf, hp⟩ := hrow
    subst hr
    simp only [List.nil_append, readRows, hi0, if_false, hf]
    rcases hp with hp | ⟨rel, hp, hge⟩
    · rw [hp]; exact readRows_data_index d ipIdx reliabilityIdx post _ _ acc (by omega) hi
    · rw [hp]; simp only [hge]
      exact readRows_data_index d ipIdx reliabilityIdx post _ _ acc (by omega) hi
  | cons r pre ih =>
    intro i acc hi
    have hi0 : i ≠ 0 := by omega
    cases r with
    | error e => simp only [List.cons_append, readRows]; exact ih _ _ (by omega)
    | ok record =>
      simp only [List.cons_append, readRows, hi0, if_false]
      cases record[reliabilityIdx]? with
      | none => rfl
      | some field =>
        simp only
        cases d.ParseFloat field with
        | none => exact ih _ _ (by omega)
        | some rel =>
          simp only
          split_ifs
          · cases record[ipIdx]? with
            | none => rfl
            | some addr => exact ih _ _ (by omega)
          · exact ih _ _ (by omega)

theorem publicDNSResolvers_ok (d : Deps) (resp : Response) (rs : List String)
    (h : publicDNSResolvers d (.ok resp) = .ok (.ok rs)) :
    ∃ resolvers, readRows d resp.Body 0 0 0 [] = .ok resolvers ∧ rs = dropBaseline resolvers := by
  unfold publicDNSResolvers at h
  simp only at h
  split_ifs at h
  · simp at h
  · cases hr : readRows d resp.Body 0 0 0 [] with
    | error f => rw [hr] at h; simp at h
    | ok resolvers =>
      rw [hr] at h
      simp only [Except.ok.injEq] at h
      exact ⟨resolvers, rfl, h.symm⟩

theorem headerIndexes_append (pre rest : List ReadResult) (hpre : pre ≠ []) :
    headerIndexes (pre ++ rest) = headerIndexes pre := by
  cases pre with
  | nil => exact absurd rfl hpre
  | cons r pre => cases r <;> rfl

/-- C7. Every address returned by `publicDNSResolvers` is the trimmed address field
of a data row (a read after the first) whose reliability field is read as a number
that is at least 0.85; a row whose reliability field is not read as a number, or is
read as a number below 0.85, can be removed from the list without changing the
result.  With reliabilities read as exact decimals, a row with reliability 0.85 is
accepted and a row with reliability 0.8499 is rejected. -/
theorem reliability_threshold :
    (∀ (d : Deps) (resp : Response) (rs : List String),
      publicDNSResolvers d (.ok resp) = .ok (.ok rs) →
      ∀ a ∈ rs, ∃ record field rel addr,
        Except.ok record ∈ resp.Body.tail ∧
        record[(headerIndexes resp.Body).2]? = some field ∧
        d.ParseFloat field = some rel ∧ rel.ge minResolverReliability = true ∧
        record[(headerIndexes resp.Body).1]? = some addr ∧ a = TrimSpace addr) ∧
    (∀ (d : Deps) (status : Int) (pre post : List ReadResult) (row : ReadResult),
      pre ≠ [] → isRejectedRow d (headerIndexes pre).2 row →
      publicDNSResolvers d (.ok ⟨status, pre ++ row :: post⟩)
        = publicDNSResolvers d (.ok ⟨status, pre ++ post⟩)) ∧
    publicDNSResolvers sampleDeps (oneRowList "192.0.2.7" "0.85") = .ok (.ok ["192.0.2.7"]) ∧
    publicDNSResolvers sampleDeps (oneRowList "192.0.2.7" "0.8499") = .ok (.ok []) := by
  refine ⟨?_, ?_, rfl, rfl⟩
  · intro d resp rs h a ha
    obtain ⟨resolvers, hr, hrs⟩ := publicDNSResolvers_ok d resp rs h
    subst hrs
    obtain ⟨addr, haddr, rfl⟩ := List.mem_map.mp ha
    have hmem : addr ∈ resolvers := (List.mem_filter.mp haddr).1
    rw [readRows_body] at hr
    rcases readRows_mem d _ _ _ 1 [] resolvers (by decide) hr addr hmem with h' | h'
    · simp at h'
    · obtain ⟨record, field, rel, h1, h2, h3, h4, h5⟩ := h'
      exact ⟨record, field, rel, addr, h1, h2, h3, h4, h5, rfl⟩
  · intro d status pre post row hpre hrow
    have key : readRows d (pre ++ row :: post) 0 0 0 [] = readRows d (pre ++ post) 0 0 0 [] := by
      rw [readRows_body, readRows_body, headerIndexes_append pre _ hpre,
        headerIndexes_append pre _ hpre]
      cases pre with
      | nil => exact absurd rfl hpre
      | cons r pre =>
        simp only [List.cons_append, List.tail_cons]
        exact readRows_drop_rejected d _ _ row post hrow pre 1 [] (by decide)
    simp only [publicDNSResolvers, key]

/-- The list with the one data row `192.0.2.7, 0.85`: the address returned comes from
that row; and the row `192.0.2.9, n/a` put after the header changes nothing. -/
theorem reliability_threshold_witness :
    (∀ a ∈ ["192.0.2.7"], ∃ record field rel addr,
        Except.ok record ∈ [(.ok ["192.0.2.7", "0.85"] : ReadResult)] ∧
        record[1]? = some field ∧
        sampleDeps.ParseFloat field = some rel ∧ rel.ge minResolverReliability = true ∧
        record[0]? = some addr ∧ a = TrimSpace addr) ∧
    publicDNSResolvers sampleDeps (.ok ⟨200, [.ok ["ip_address", "reliability"]] ++
        .ok ["192.0.2.9", "n/a"] :: [.ok ["192.0.2.7", "0.85"]]⟩)
      = publicDNSResolvers sampleDeps (.ok ⟨200, [.ok ["ip_address", "reliability"]] ++
        [.ok ["192.0.2.7", "0.85"]]⟩) :=
  ⟨reliability_threshold.1 sampleDeps
      ⟨200, [.ok ["ip_address", "reliability"], .ok ["192.0.2.7", "0.85"]]⟩ ["192.0.2.7"] rfl,
    reliability_threshold.2.1 sampleDeps 200 [.ok ["ip_address", "reliability"]]
      [.ok ["192.0.2.7", "0.85"]] (.ok ["192.0.2.9", "n/a"]) (by simp)
      ⟨["192.0.2.9", "n/a"], "n/a", rfl, rfl, Or.inl rfl⟩⟩

/-- C6, evaluated on the code. The catalog holds 8.8.8.8, and the exact row `8.8.8.8`
is dropped; but a row that writes the address with a leading blank, or with the port
53, passes the comparison with the catalog, and `8.8.8.8:53` is in the address list
built for the untrusted pool.  An IPv6 catalog address written in lower case passes
the comparison as well. -/
theorem catalog_address_in_untrusted_list :
    baseline.mk "8.8.8.8" 20 ∈ baselineResolvers ∧
    publicDNSResolvers sampleDeps (oneRowList "8.8.8.8" "0.99") = .ok (.ok []) ∧
    publicDNSResolvers sampleDeps (oneRowList " 8.8.8.8" "0.99") = .ok (.ok ["8.8.8.8"]) ∧
    checkAddresses sampleDeps (Deduplicate ["8.8.8.8"]) = ["8.8.8.8:53"] ∧
    publicDNSResolvers sampleDeps (oneRowList "8.8.8.8:53" "0.99")
      = .ok (.ok ["8.8.8.8:53"]) ∧
    checkAddresses sampleDeps (Deduplicate ["8.8.8.8:53"]) = ["8.8.8.8:53"] ∧
    (untrustedResolvers sampleDeps (oneRowList " 8.8.8.8" "0.99")).map
        (fun r => r.1.map (fun pool => pool.servers))
      = .ok (some [(5, "8.8.8.8:53")]) ∧
    baseline.mk "2620:10A:80BB::10" 5 ∈ baselineResolvers ∧
    publicDNSResolvers sampleDeps (oneRowList "2620:10a:80bb::10" "0.99")
      = .ok (.ok ["2620:10a:80bb::10"]) :=
  ⟨by decide, rfl, rfl, by decide, rfl, by decide, rfl, by decide, rfl⟩

/-! ## Package initialisation -/

theorem SetRateTracker_error (r : Option Resolvers) (rt : RateTracker) (f : Fault)
    (h : SetRateTracker r rt = .error f) : f = Fault.nilDereference := by
  cases r with
  | none => simp only [SetRateTracker, Except.error.injEq] at h; exact h.symm
  | some p => simp [SetRateTracker] at h

/-- C8, evaluated on the code. When `untrustedResolvers` yields no pool, `init` calls
`SetRateTracker` on the absent pool and ends in a nil dereference instead of
completing. -/
theorem init_without_untrusted_pool (d : Deps) (fetch : Except String Response) (n : Nat)
    (h : untrustedResolvers d fetch = .ok (none, n)) :
    init d fetch = .error Fault.nilDereference := by
  unfold init
  simp only [h]
  cases ht : SetRateTracker (trustedResolvers d).1 ⟨0⟩ with
  | error f => rw [SetRateTracker_error _ _ f ht]
  | ok trusted => rfl

/-- The web request fails: no untrusted pool, and `init` ends in a nil dereference. -/
theorem init_without_untrusted_pool_witness :
    untrustedResolvers sampleDeps (.error "connection refused") = .ok (none, 0) ∧
    init sampleDeps (.error "connection refused") = .error Fault.nilDereference :=
  ⟨rfl, init_without_untrusted_pool sampleDeps (.error "connection refused") 0 rfl⟩

/-! ## The guess pipeline -/

theorem guessLoop_no_release (d : Deps) (g : Pools) (e : Event) (name : String) :
    ∀ (qtypes : List Nat) (i calls : Nat),
      Effect.release ∉ (guessLoop d g e name qtypes i calls).effects := by
  intro qtypes
  induction qtypes with
  | nil => intro i calls; simp [guessLoop]
  | cons qtype rest ih =>
    intro i calls
    rw [guessLoop]
    by_cases hdone : e.Session.Done i = true
    · simp [hdone]
    · simp only [hdone]
      cases hq : PerformUntrustedQuery d g name qtype calls with
      | mk res calls1 =>
        cases res with
        | error f => simp
        | ok r =>
          obtain ⟨ans, err⟩ := r
          have := ih (i + 1) calls1
          by_cases hhit : err = none ∧ ans ≠ none
          · simp [hhit, this]
          · simp [hhit, this]

theorem guessAttempt_release_once (d : Deps) (g : Pools) (e : Event) (name : String)
    (calls : Nat) :
    (guessAttempt d g e name calls).effects.count Effect.release = 1 ∧
    (guessAttempt d g e name calls).effects.getLast? = some Effect.release := by
  unfold guessAttempt
  by_cases hc : e.Session.cached name = true
  · simp [hc]
  · have hno := guessLoop_no_release d g e name [TypeCNAME, TypeA, TypeAAAA] 0 calls
    rw [if_neg hc]
    constructor
    · show List.count Effect.release
        ((guessLoop d g e name [TypeCNAME, TypeA, TypeAAAA] 0 calls).effects
          ++ [Effect.release]) = 1
      rw [List.count_append, List.count_eq_zero_of_not_mem hno]
      simp
    · show List.getLast?
        ((guessLoop d g e name [TypeCNAME, TypeA, TypeAAAA] 0 calls).effects
          ++ [Effect.release]) = some Effect.release
      simp

theorem reachable_invariant (num : Nat) (s : Pipeline) (h : Reachable num s) :
    s.free + s.running = num ∧ ∀ item ∈ s.queue, ∃ g, item = QueueItem.guessPtr g := by
  induction h with
  | start => simp [Pipeline.start]
  | step s t _ hstep ih =>
    obtain ⟨hsum, hq⟩ := ih
    cases hstep with
    | submit e name =>
      refine ⟨hsum, ?_⟩
      intro item hitem
      rcases List.mem_append.mp hitem with h' | h'
      · exact hq item h'
      · exact ⟨_, by simpa using h'⟩
    | dispatch free running g rest =>
      refine ⟨by simp only at hsum ⊢; omega, ?_⟩
      intro item hitem
      exact hq item (List.mem_cons_of_mem _ hitem)
    | discard free running item rest hitem =>
      obtain ⟨g, hg⟩ := hq item (List.mem_cons_self _ _)
      exact absurd hg (hitem g)
    | finish free running queue hroom =>
      exact ⟨by simp only at hsum ⊢; omega, hq⟩

/-- C9. Every run of `guessAttempt` gives back exactly one token, as its last effect,
whether it ends on a cache hit, on a cancelled session or after its queries; and in
every state that the pipeline reaches from its start with `num` tokens, the free
tokens and the running jobs add up to `num`, so that at most `num` jobs run at the
same time, however many guesses were submitted; a running job always finds room in
the channel for its token. -/
theorem running_jobs_bounded :
    (∀ (d : Deps) (g : Pools) (e : Event) (name : String) (calls : Nat),
      (guessAttempt d g e name calls).effects.count Effect.release = 1 ∧
      (guessAttempt d g e name calls).effects.getLast? = some Effect.release) ∧
    (∀ (num : Nat) (s : Pipeline), Reachable num s →
      s.free + s.running = num ∧ s.running ≤ num ∧ (0 < s.running → s.free < num)) := by
  refine ⟨guessAttempt_release_once, ?_⟩
  intro num s h
  have hsum := (reachable_invariant num s h).1
  exact ⟨hsum, by omega, fun hr => by omega⟩

/-- Two tokens, one guess submitted and dispatched: one token free, one job running. -/
theorem running_jobs_bounded_witness :
    Reachable 2 oneJobRunning ∧
    oneJobRunning.free + oneJobRunning.running = 2 ∧ oneJobRunning.running ≤ 2 ∧
    (0 < oneJobRunning.running → oneJobRunning.free < 2) :=
  have hreach : Reachable 2 oneJobRunning :=
    Reachable.step _ _
      (Reachable.step _ _ Reachable.start
        (Step.submit (Pipeline.start 2) sampleEvent "new.example.test"))
      (Step.dispatch 1 0 sampleGuess [])
  ⟨hreach, running_jobs_bounded.2 2 oneJobRunning hreach⟩

/-- C10. When the session cache holds the FQDN asset of the name, `guessAttempt` gives
its token back and does nothing else: no untrusted query, no engine call, no call of
the success callback. -/
theorem cached_name_is_not_queried (d : Deps) (g : Pools) (e : Event) (name : String)
    (calls : Nat) (hit : e.Session.cached name = true) :
    guessAttempt d g e name calls
      = { effects := [Effect.release], fault := none, calls := calls } ∧
    (∀ qtype, Effect.query name qtype ∉ (guessAttempt d g e name calls).effects) ∧
    Effect.callback name ∉ (guessAttempt d g e name calls).effects := by
  have h : guessAttempt d g e name calls
      = { effects := [Effect.release], fault := none, calls := calls } := by
    simp [guessAttempt, hit]
  rw [h]
  exact ⟨rfl, by simp, by simp⟩

/-- The name `known.example.test` is in the cache of `sampleEvent`: nothing is
queried, even with a pool that would answer. -/
theorem cached_name_is_not_queried_witness :
    sampleEvent.Session.cached "known.example.test" = true ∧
    guessAttempt sampleDeps ⟨none, some wildcardPool⟩ sampleEvent "known.example.test" 0
      = { effects := [Effect.release], fault := none, calls := 0 } :=
  ⟨by decide,
    (cached_name_is_not_queried sampleDeps ⟨none, some wildcardPool⟩ sampleEvent
      "known.example.test" 0 (by decide)).1⟩

/-! ## Normalized answers -/

theorem normalize_fold (rs : List ExtractedAnswer) :
    ∀ acc : Option (List ExtractedAnswer),
      rs.foldl
        (fun results rr =>
          some (results.getD [] ++
            [{ Name := ToLower rr.Name, RType := rr.RType, Data := ToLower rr.Data }])) acc
        = if rs = [] then acc else some (acc.getD [] ++ rs.map lowerAnswer) := by
  induction rs with
  | nil => intro acc; simp
  | cons r rs ih =>
    intro acc
    rw [List.foldl_cons, ih]
    by_cases h : rs = []
    · subst h; simp [lowerAnswer]
    · simp [h, lowerAnswer]

theorem normalize_eq (rs : List ExtractedAnswer) :
    normalize rs = if rs = [] then none else some (rs.map lowerAnswer) := by
  unfold normalize
  rw [normalize_fold]
  simp

theorem filterAnswers_some (d : Deps) (r : Option Resolvers) (qtype : Nat) (res : DnsResult)
    (l : List ExtractedAnswer) (err : Option String)
    (h : filterAnswers d r qtype res = .ok (some l, err)) :
    err = none ∧ ∃ resp, res = (some resp, none) ∧
      AnswersByType (d.ExtractAnswers resp) qtype ≠ [] ∧
      l = (AnswersByType (d.ExtractAnswers resp) qtype).map lowerAnswer := by
  obtain ⟨resp, e⟩ := res
  cases resp with
  | none => simp [filterAnswers] at h
  | some resp =>
    cases e with
    | some e => simp [filterAnswers] at h
    | none =>
      simp only [filterAnswers] at h
      cases hw : wildcardDetected d resp r with
      | error f => rw [hw] at h; simp at h
      | ok b =>
        rw [hw] at h
        cases b with
        | true => simp at h
        | false =>
          simp only at h
          split_ifs at h with h1 h2
          · rw [normalize_eq] at h
            have hne : AnswersByType (d.ExtractAnswers resp) qtype ≠ [] := by
              intro h0; rw [h0] at h2; simp at h2
            rw [if_neg hne] at h
            simp only [Except.ok.injEq, Prod.mk.injEq, Option.some.injEq] at h
            exact ⟨h.2.symm, resp, rfl, hne, h.1.symm⟩
          · simp at h
          · simp at h

theorem performOn_some (d : Deps) (r : Option Resolvers) (name : String) (qtype c c1 : Nat)
    (l : List ExtractedAnswer) (err : Option String)
    (h : performOn d r name qtype c = (.ok (some l, err), c1)) :
    err = none ∧ ∃ resp, dnsQuery (queryMessage d name qtype) r 50 c
        = (.ok (some resp, none), c1) ∧
      AnswersByType (d.ExtractAnswers resp) qtype ≠ [] ∧
      l = (AnswersByType (d.ExtractAnswers resp) qtype).map lowerAnswer := by
  unfold performOn at h
  cases hq : dnsQuery (queryMessage d name qtype) r 50 c with
  | mk res c2 =>
    rw [hq] at h
    cases res with
    | error f => simp at h
    | ok res =>
      simp only [Prod.mk.injEq] at h
      obtain ⟨hf, hc⟩ := h
      subst hc
      obtain ⟨he, resp, hres, hne, hl⟩ := filterAnswers_some d r qtype res l err hf
      subst hres
      exact ⟨he, resp, rfl, hne, hl⟩

theorem callbackOn_iff (d : Deps) (r : Option Resolvers) (name : String) (qtype c c1 : Nat)
    (res : QueryResult) (h : performOn d r name qtype c = (.ok res, c1)) :
    callbackOn name res = [Effect.callback name] ↔ ∃ l, l ≠ [] ∧ res = (some l, none) := by
  obtain ⟨ans, err⟩ := res
  constructor
  · intro hcb
    cases ans with
    | none => simp [callbackOn] at hcb
    | some l =>
      obtain ⟨he, resp, _, hne, hl⟩ := performOn_some d r name qtype c c1 l err h
      subst he
      refine ⟨l, ?_, rfl⟩
      rw [hl]; simpa using hne
  · rintro ⟨l, _, hres⟩
    simp only [Prod.mk.injEq] at hres
    obtain ⟨h1, h2⟩ := hres
    subst h1; subst h2
    simp [callbackOn]

/-- C11. For a name that is not in the cache: when the session is never cancelled and
the queries return, `guessAttempt` issues exactly the three untrusted queries CNAME,
A, AAAA, in this order, each followed by one call of the success callback exactly
when it returned a non-empty answer set without error, then gives its token back,
so the callback fires between zero and three times.  When the session is seen
cancelled at the poll before a query, that query and the later ones are not issued
and no further callback fires. -/
theorem guess_queries_in_order (d : Deps) (g : Pools) (e : Event) (name : String) (c : Nat)
    (hmiss : e.Session.cached name = false) :
    (∀ r1 c1 r2 c2 r3 c3, (∀ i, e.Session.Done i = false) →
      PerformUntrustedQuery d g name TypeCNAME c = (.ok r1, c1) →
      PerformUntrustedQuery d g name TypeA c1 = (.ok r2, c2) →
      PerformUntrustedQuery d g name TypeAAAA c2 = (.ok r3, c3) →
      guessAttempt d g e name c =
        { effects := (Effect.query name TypeCNAME :: callbackOn name r1) ++
            (Effect.query name TypeA :: callbackOn name r2) ++
            (Effect.query name TypeAAAA :: callbackOn name r3) ++ [Effect.release],
          fault := none, calls := c3 }) ∧
    (∀ qtype c0 r c1, PerformUntrustedQuery d g name qtype c0 = (.ok r, c1) →
      (callbackOn name r = [Effect.callback name] ↔ ∃ l, l ≠ [] ∧ r = (some l, none)) ∧
      (callbackOn name r = [Effect.callback name] ∨ callbackOn name r = [])) ∧
    (e.Session.Done 0 = true →
      guessAttempt d g e name c = { effects := [Effect.release], fault := none, calls := c }) ∧
    (∀ r1 c1, e.Session.Done 0 = false → e.Session.Done 1 = true →
      PerformUntrustedQuery d g name TypeCNAME c = (.ok r1, c1) →
      guessAttempt d g e name c =
        { effects := (Effect.query name TypeCNAME :: callbackOn name r1) ++ [Effect.release],
          fault := none, calls := c1 }) ∧
    (∀ r1 c1 r2 c2, e.Session.Done 0 = false → e.Session.Done 1 = false →
      e.Session.Done 2 = true →
      PerformUntrustedQuery d g name TypeCNAME c = (.ok r1, c1) →
      PerformUntrustedQuery d g name TypeA c1 = (.ok r2, c2) →
      guessAttempt d g e name c =
        { effects := (Effect.query name TypeCNAME :: callbackOn name r1) ++
            (Effect.query name TypeA :: callbackOn name r2) ++ [Effect.release],
          fault := none, calls := c2 }) := by
  refine ⟨?_, ?_, ?_, ?_, ?_⟩
  · intro r1 c1 r2 c2 r3 c3 hlive h1 h2 h3
    obtain ⟨a1, e1⟩ := r1
    obtain ⟨a2, e2⟩ := r2
    obtain ⟨a3, e3⟩ := r3
    simp [guessAttempt, guessLoop, hmiss, hlive, h1, h2, h3, callbackOn]
  · intro qtype c0 r c1 h
    refine ⟨callbackOn_iff d g.untrusted name qtype c0 c1 r h, ?_⟩
    unfold callbackOn
    split_ifs
    · exact Or.inl rfl
    · exact Or.inr rfl
  · intro h0
    simp [guessAttempt, guessLoop, hmiss, h0]
  · intro r1 c1 h0 h1 hq1
    obtain ⟨a1, e1⟩ := r1
    simp [guessAttempt, guessLoop, hmiss, h0, h1, hq1, callbackOn]
  · intro r1 c1 r2 c2 h0 h1 h2 hq1 hq2
    obtain ⟨a1, e1⟩ := r1
    obtain ⟨a2, e2⟩ := r2
    simp [guessAttempt, guessLoop, hmiss, h0, h1, h2, hq1, hq2, callbackOn]

/-- The guess `sub.example.test` against a pool that answers with its A record: three
queries, and one callback, after the A query. -/
theorem guess_queries_in_order_witness :
    sampleEvent.Session.cached "sub.example.test" = false ∧
    guessAttempt sampleDeps ⟨none, some answeringPool⟩ sampleEvent "sub.example.test" 0 =
      { effects := [Effect.query "sub.example.test" TypeCNAME,
          Effect.query "sub.example.test" TypeA, Effect.callback "sub.example.test",
          Effect.query "sub.example.test" TypeAAAA, Effect.release],
        fault := none, calls := 3 } :=
  ⟨by decide,
    (guess_queries_in_order sampleDeps ⟨none, some answeringPool⟩ sampleEvent
      "sub.example.test" 0 (by decide)).1
      (none, none) 1
      (some [{ Name := "sub.example.test", RType := TypeA, Data := "192.0.2.1" }], none) 2
      (none, none) 3 (fun _ => rfl) rfl rfl rfl⟩

theorem toLower_not_upper (c : Char) :
    ¬ (65 ≤ c.toLower.toNat ∧ c.toLower.toNat ≤ 90) := by
  by_cases h : 65 ≤ c.toNat ∧ c.toNat ≤ 90
  · have e : c.toLower = Char.ofNat (c.toNat + 32) := by
      simp only [Char.toLower, ge_iff_le, h, and_self, if_true]
    rw [e]
    obtain ⟨h1, h2⟩ := h
    generalize c.toNat = n at h1 h2
    interval_cases n <;> decide
  · have e : c.toLower = c := by
      simp only [Char.toLower, ge_iff_le, h, if_false]
    rw [e]; exact h

theorem char_toLower_idem (c : Char) : c.toLower.toLower = c.toLower := by
  have h := toLower_not_upper c
  generalize c.toLower = x at h
  simp only [Char.toLower, ge_iff_le, h, if_false]

theorem ToLower_idem (s : String) : ToLower (ToLower s) = ToLower s := by
  unfold ToLower
  simp only [List.map_map]
  congr 1
  apply List.map_congr_left
  intro c _
  exact char_toLower_idem c

theorem lowerAnswer_idem (rr : ExtractedAnswer) : lowerAnswer (lowerAnswer rr) = lowerAnswer rr := by
  simp [lowerAnswer, ToLower_idem]

/-- C12. The function `normalize` is idempotent: normalizing the answers that
`normalize` returned gives the same slice again, which is the list of the lower-cased
copies of the records, in order, with their types unchanged. -/
theorem normalize_idempotent (rs : List ExtractedAnswer) :
    normalize ((normalize rs).getD []) = normalize rs ∧
    (normalize rs).getD [] = rs.map lowerAnswer ∧
    ((normalize rs).getD []).length = rs.length ∧
    ∀ a ∈ (normalize rs).getD [], ToLower a.Name = a.Name ∧ ToLower a.Data = a.Data := by
  have hget : (normalize rs).getD [] = rs.map lowerAnswer := by
    rw [normalize_eq]
    by_cases h : rs = []
    · subst h; simp
    · simp [h]
  refine ⟨?_, hget, by rw [hget, List.length_map], ?_⟩
  · rw [hget, normalize_eq, normalize_eq]
    by_cases h : rs = []
    · subst h; simp
    · simp [h, lowerAnswer_idem]
  · intro a ha
    rw [hget] at ha
    obtain ⟨rr, _, rfl⟩ := List.mem_map.mp ha
    simp [lowerAnswer, ToLower_idem]

/-- An alias record in upper and lower case: normalized once, and then unchanged. -/
theorem normalize_idempotent_witness :
    normalize [{ Name := "WWW.Example.TEST", RType := TypeCNAME, Data := "Host.Example.TEST." }]
      = some [{ Name := "www.example.test", RType := TypeCNAME, Data := "host.example.test." }] ∧
    normalize ((normalize
        [{ Name := "WWW.Example.TEST", RType := TypeCNAME, Data := "Host.Example.TEST." }]).getD [])
      = normalize
        [{ Name := "WWW.Example.TEST", RType := TypeCNAME, Data := "Host.Example.TEST." }] ∧
    ToLower "www.example.test" = "www.example.test" ∧
    ToLower "host.example.test." = "host.example.test." :=
  have h := normalize_idempotent
    [{ Name := "WWW.Example.TEST", RType := TypeCNAME, Data := "Host.Example.TEST." }]
  ⟨by decide, h.1,
    h.2.2.2 { Name := "www.example.test", RType := TypeCNAME, Data := "host.example.test." }
      (by decide)⟩

/-! ## The addresses handed to the untrusted pool -/

theorem checkAddresses_eq_filterMap (d : Deps) (addrs : List String) :
    checkAddresses d addrs = addrs.filterMap (entryOf d) := by
  induction addrs with
  | nil => rfl
  | cons addr rest ih =>
    have hp : (match SplitHostPort addr with
        | some (ip, port) => (ip, port)
        | none => (addr, "53")) = hostAndPort addr := rfl
    simp only [checkAddresses, hp, List.filterMap_cons, entryOf]
    by_cases h : d.ParseIP (hostAndPort addr).1 = true
    · simp [h, ih]
    · simp [h, ih]

/-- C13, as stated, fails: the input `192.0.2.1:` is split without error into the
host `192.0.2.1` and an empty port, and `checkAddresses` returns the entry
`192.0.2.1:`, whose port is empty. -/
theorem empty_port_counterexample :
    SplitHostPort "192.0.2.1:" = some ("192.0.2.1", "") ∧
    sampleDeps.ParseIP "192.0.2.1" = true ∧
    checkAddresses sampleDeps ["192.0.2.1:"] = [JoinHostPort "192.0.2.1" ""] ∧
    checkAddresses sampleDeps ["192.0.2.1:"] = ["192.0.2.1:"] :=
  ⟨by decide, by decide, by decide, by decide⟩

/-- C13, amended. The result of `checkAddresses` is, in the order of the input, the
list of the entries of the inputs whose host part is a valid IP literal: `IP:53` for
an input that `net.SplitHostPort` does not split (a bare IP literal), and the host
joined with the port as written, which is not checked, for an input that it splits;
an input whose host part is not a valid IP literal contributes nothing. -/
theorem checkAddresses_entries (d : Deps) (addrs : List String) :
    checkAddresses d addrs = addrs.filterMap (entryOf d) ∧
    (∀ more, checkAddresses d (addrs ++ more)
      = checkAddresses d addrs ++ checkAddresses d more) ∧
    (∀ entry ∈ checkAddresses d addrs, ∃ addr ∈ addrs,
      d.ParseIP (hostAndPort addr).1 = true ∧
      entry = JoinHostPort (hostAndPort addr).1 (hostAndPort addr).2) ∧
    (∀ addr, SplitHostPort addr = none → d.ParseIP addr = true →
      checkAddresses d [addr] = [JoinHostPort addr "53"]) ∧
    (∀ addr ip port, SplitHostPort addr = some (ip, port) → d.ParseIP ip = true →
      checkAddresses d [addr] = [JoinHostPort ip port]) ∧
    (∀ addr, d.ParseIP (hostAndPort addr).1 = false → checkAddresses d [addr] = []) := by
  refine ⟨checkAddresses_eq_filterMap d addrs, ?_, ?_, ?_, ?_, ?_⟩
  · intro more
    simp only [checkAddresses_eq_filterMap, List.filterMap_append]
  · intro entry hentry
    rw [checkAddresses_eq_filterMap] at hentry
    obtain ⟨addr, haddr, he⟩ := List.mem_filterMap.mp hentry
    refine ⟨addr, haddr, ?_⟩
    unfold entryOf at he
    by_cases h : d.ParseIP (hostAndPort addr).1 = true
    · rw [if_pos h] at he
      exact ⟨h, (Option.some.inj he).symm⟩
    · rw [if_neg h] at he; simp at he
  · intro addr hs hp
    simp [checkAddresses, hs, hp]
  · intro addr ip port hs hp
    simp [checkAddresses, hs, hp]
  · intro addr hp
    have : entryOf d addr = none := by simp [entryOf, hp]
    simp [checkAddresses_eq_filterMap, this]

/-- A bare address, an address with a port, a host name and an address with an
empty port. -/
theorem checkAddresses_entries_witness :
    checkAddresses sampleDeps ["192.0.2.1", "192.0.2.2:5353", "resolver.example", "192.0.2.3:"]
      = ["192.0.2.1:53", "192.0.2.2:5353", "192.0.2.3:"] ∧
    (∃ addr ∈ ["192.0.2.1", "192.0.2.2:5353", "resolver.example", "192.0.2.3:"],
      sampleDeps.ParseIP (hostAndPort addr).1 = true ∧
      "192.0.2.2:5353" = JoinHostPort (hostAndPort addr).1 (hostAndPort addr).2) ∧
    checkAddresses sampleDeps ["192.0.2.1"] = [JoinHostPort "192.0.2.1" "53"] ∧
    checkAddresses sampleDeps ["192.0.2.2:5353"] = [JoinHostPort "192.0.2.2" "5353"] ∧
    checkAddresses sampleDeps ["resolver.example"] = [] :=
  have h := checkAddresses_entries sampleDeps
    ["192.0.2.1", "192.0.2.2:5353", "resolver.example", "192.0.2.3:"]
  ⟨h.1.trans (by decide), h.2.2.1 "192.0.2.2:5353" (by decide),
    h.2.2.2.1 "192.0.2.1" (by decide) (by decide),
    h.2.2.2.2.1 "192.0.2.2:5353" "192.0.2.2" "5353" (by decide) (by decide),
    h.2.2.2.2.2 "resolver.example" (by decide)⟩

/-- C14, evaluated on the code. The addresses `192.0.2.1` and `192.0.2.1:53` are two
different strings, so `Deduplicate` keeps both, and `checkAddresses` turns both into
the endpoint `192.0.2.1:53`: the list handed to the pool holds it twice. -/
theorem duplicate_endpoint_in_untrusted_list :
    (Deduplicate ["192.0.2.1", "192.0.2.1:53"]).Nodup ∧
    (Deduplicate ["192.0.2.1", "192.0.2.1:53"]).length = 2 ∧
    checkAddresses sampleDeps (Deduplicate ["192.0.2.1", "192.0.2.1:53"])
      = ["192.0.2.1:53", "192.0.2.1:53"] ∧
    ¬ (checkAddresses sampleDeps (Deduplicate ["192.0.2.1", "192.0.2.1:53"])).Nodup :=
  ⟨by decide, by decide, by decide, by decide⟩

/-! ## Columns located by name -/

theorem scanHeader_fst_absent : ∀ (l : List String) (idx a b : Nat),
    "ip_address" ∉ l → (scanHeader l idx (a, b)).1 = a := by
  intro l
  induction l with
  | nil => intro idx a b _; rfl
  | cons y t ih =>
    intro idx a b h
    have hy : ¬ y = "ip_address" := fun e => h (e ▸ List.mem_cons_self _ _)
    have ht : "ip_address" ∉ t := fun m => h (List.mem_cons_of_mem _ m)
    rw [scanHeader, if_neg hy]
    split_ifs
    · exact ih _ _ _ ht
    · exact ih _ _ _ ht

theorem scanHeader_snd_absent : ∀ (l : List String) (idx a b : Nat),
    "reliability" ∉ l → (scanHeader l idx (a, b)).2 = b := by
  intro l
  induction l with
  | nil => intro idx a b _; rfl
  | cons y t ih =>
    intro idx a b h
    have hy : ¬ y = "reliability" := fun e => h (e ▸ List.mem_cons_self _ _)
    have ht : "reliability" ∉ t := fun m => h (List.mem_cons_of_mem _ m)
    rw [scanHeader]
    split_ifs
    · exact ih _ _ _ ht
    · exact ih _ _ _ ht

theorem scanHeader_fst : ∀ (l : List String) (idx a b j : Nat),
    l.count "ip_address" = 1 → l[j]? = some "ip_address" →
    (scanHeader l idx (a, b)).1 = idx + j := by
  intro l
  induction l with
  | nil => intro idx a b j h; simp at h
  | cons y t ih =>
    intro idx a b j hc hj
    by_cases hy : y = "ip_address"
    · subst hy
      have ht : "ip_address" ∉ t := by
        rw [List.count_cons_self] at hc
        exact List.count_eq_zero.mp (by omega)
      cases j with
      | zero =>
        rw [scanHeader, if_pos rfl]
        exact scanHeader_fst_absent t _ _ _ ht
      | succ j =>
        simp only [List.getElem?_cons_succ] at hj
        exact absurd (List.getElem?_mem hj) ht
    · have hc' : t.count "ip_address" = 1 := by
        rw [List.count_cons_of_ne (Ne.symm hy)] at hc; exact hc
      cases j with
      | zero => simp at hj; exact absurd hj hy
      | succ j =>
        simp only [List.getElem?_cons_succ] at hj
        rw [scanHeader, if_neg hy]
        split_ifs
        · rw [ih _ _ _ j hc' hj]; omega
        · rw [ih _ _ _ j hc' hj]; omega

theorem scanHeader_snd : ∀ (l : List String) (idx a b j : Nat),
    l.count "reliability" = 1 → l[j]? = some "reliability" →
    (scanHeader l idx (a, b)).2 = idx + j := by
  intro l
  induction l with
  | nil => intro idx a b j h; simp at h
  | cons y t ih =>
    intro idx a b j hc hj
    by_cases hy : y = "reliability"
    · subst hy
      have ht : "reliability" ∉ t := by
        rw [List.count_cons_self] at hc
        exact List.count_eq_zero.mp (by omega)
      cases j with
      | zero =>
        rw [scanHeader, if_neg (by decide), if_pos rfl]
        exact scanHeader_snd_absent t _ _ _ ht
      | succ j =>
        simp only [List.getElem?_cons_succ] at hj
        exact absurd (List.getElem?_mem hj) ht
    · have hc' : t.count "reliability" = 1 := by
        rw [List.count_cons_of_ne (Ne.symm hy)] at hc; exact hc
      cases j with
      | zero => simp at hj; exact absurd hj hy
      | succ j =>
        simp only [List.getElem?_cons_succ] at hj
        rw [scanHeader, if_neg hy]
        split_ifs
        · rw [ih _ _ _ j hc' hj]; omega
        · rw [ih _ _ _ j hc' hj]; omega

theorem permute_range (record : List String) :
    permute (List.range record.length) record = record := by
  apply List.ext_getElem?
  intro i
  unfold permute
  rw [List.getElem?_map]
  by_cases h : i < record.length
  · rw [List.getElem?_range h]
    simp [List.getElem?_eq_getElem h]
  · have h' : record.length ≤ i := by omega
    rw [List.getElem?_eq_none h', List.getElem?_eq_none (by simpa using h')]
    rfl

theorem permute_perm (p : List Nat) (record : List String)
    (hp : p.Perm (List.range record.length)) : (permute p record).Perm record := by
  have h := List.Perm.map (fun j => record.getD j "") hp
  have e := permute_range record
  unfold permute at e
  rw [e] at h
  exact h

theorem permute_getElem? (p : List Nat) (record : List String) (k j : Nat)
    (hk : p[k]? = some j) (hj : j < record.length) : (permute p record)[k]? = record[j]? := by
  unfold permute
  rw [List.getElem?_map, hk]
  simp [List.getElem?_eq_getElem hj]

theorem readRows_permuted (d : Deps) (p : List Nat) (n ipIdx relIdx ipIdx2 relIdx2 : Nat)
    (hip : p[ipIdx2]? = some ipIdx) (hrel : p[relIdx2]? = some relIdx)
    (hipn : ipIdx < n) (hreln : relIdx < n) :
    ∀ (rows : List ReadResult) (i : Nat) (acc : List String), 0 < i →
      (∀ record, Except.ok record ∈ rows → record.length = n) →
      readRows d (rows.map (permuteRead p)) i ipIdx2 relIdx2 acc
        = readRows d rows i ipIdx relIdx acc := by
  intro rows
  induction rows with
  | nil => intro i acc _ _; rfl
  | cons row rows ih =>
    intro i acc hi hlen
    have hi0 : i ≠ 0 := by omega
    have hrest : ∀ record, Except.ok record ∈ rows → record.length = n :=
      fun record hm => hlen record (List.mem_cons_of_mem _ hm)
    cases row with
    | error e =>
      simp only [List.map_cons, permuteRead, readRows]
      exact ih _ _ (by omega) hrest
    | ok record =>
      have hl : record.length = n := hlen record (List.mem_cons_self _ _)
      have e1 := permute_getElem? p record relIdx2 relIdx hrel (by omega)
      have e2 := permute_getElem? p record ipIdx2 ipIdx hip (by omega)
      simp only [List.map_cons, permuteRead, readRows, hi0, if_false, e1, e2]
      cases record[relIdx]? with
      | none => rfl
      | some field =>
        simp only
        cases d.ParseFloat field with
        | none => exact ih _ _ (by omega) hrest
        | some rel =>
          simp only
          split_ifs
          · cases record[ipIdx]? with
            | none => rfl
            | some addr => exact ih _ _ (by omega) hrest
          · exact ih _ _ (by omega) hrest

theorem scanHeader_permuted (p : List Nat) (header : List String)
    (hp : p.Perm (List.range header.length))
    (hip : header.count "ip_address" = 1) (hrel : header.count "reliability" = 1) :
    p[(scanHeader (permute p header) 0 (0, 0)).1]? = some (scanHeader header 0 (0, 0)).1 ∧
    p[(scanHeader (permute p header) 0 (0, 0)).2]? = some (scanHeader header 0 (0, 0)).2 ∧
    (scanHeader header 0 (0, 0)).1 < header.length ∧
    (scanHeader header 0 (0, 0)).2 < header.length := by
  have hperm := permute_perm p header hp
  have key : ∀ x : String, header.count x = 1 →
      ∃ j k : Nat, header[j]? = some x ∧ j < header.length ∧ p[k]? = some j ∧
        (permute p header)[k]? = some x ∧ (permute p header).count x = 1 := by
    intro x hx
    have hmem : x ∈ header := List.count_pos_iff.mp (by omega)
    obtain ⟨j, hj⟩ := List.getElem?_of_mem hmem
    have hjl : j < header.length := by
      by_contra hge
      rw [List.getElem?_eq_none (by omega)] at hj
      simp at hj
    have hjp : j ∈ p := hp.mem_iff.mpr (List.mem_range.mpr hjl)
    obtain ⟨k, hk⟩ := List.getElem?_of_mem hjp
    exact ⟨j, k, hj, hjl, hk, (permute_getElem? p header k j hk hjl).trans hj,
      (hperm.count_eq x).trans hx⟩
  obtain ⟨j1, k1, hj1, hl1, hk1, hpk1, hc1⟩ := key "ip_address" hip
  obtain ⟨j2, k2, hj2, hl2, hk2, hpk2, hc2⟩ := key "reliability" hrel
  rw [scanHeader_fst header 0 0 0 j1 hip hj1, scanHeader_snd header 0 0 0 j2 hrel hj2,
    scanHeader_fst _ 0 0 0 k1 hc1 hpk1, scanHeader_snd _ 0 0 0 k2 hc2 hpk2]
  simp only [Nat.zero_add]
  exact ⟨hk1, hk2, hl1, hl2⟩

/-- C15, as stated, fails: with two columns named `ip_address` the last one is read,
so exchanging these two columns in the header and in the row changes the address
returned. -/
theorem duplicate_column_counterexample :
    ([1, 0, 2] : List Nat).Perm (List.range 3) ∧
    "ip_address" ∈ ["ip_address", "ip_address", "reliability"] ∧
    "reliability" ∈ ["ip_address", "ip_address", "reliability"] ∧
    permute [1, 0, 2] ["ip_address", "ip_address", "reliability"]
      = ["ip_address", "ip_address", "reliability"] ∧
    permute [1, 0, 2] ["192.0.2.1", "192.0.2.2", "0.9"] = ["192.0.2.2", "192.0.2.1", "0.9"] ∧
    publicDNSResolvers sampleDeps (.ok ⟨200, [.ok ["ip_address", "ip_address", "reliability"],
        .ok ["192.0.2.1", "192.0.2.2", "0.9"]]⟩) = .ok (.ok ["192.0.2.2"]) ∧
    publicDNSResolvers sampleDeps (.ok ⟨200,
        [.ok (permute [1, 0, 2] ["ip_address", "ip_address", "reliability"]),
          permuteRead [1, 0, 2] (.ok ["192.0.2.1", "192.0.2.2", "0.9"])]⟩)
      = .ok (.ok ["192.0.2.1"]) :=
  ⟨by decide, by decide, by decide, by decide, by decide, rfl, rfl⟩

/-- C15, amended. For a list whose header record has exactly one column named
`ip_address` and exactly one column named `reliability`, and whose records all have
as many fields as the header, rearranging the columns of the header and of every
record by one permutation does not change the result of `publicDNSResolvers`. -/
theorem column_order_is_irrelevant (d : Deps) (status : Int) (header : List String)
    (rows : List ReadResult) (p : List Nat)
    (hp : p.Perm (List.range header.length))
    (hip : header.count "ip_address" = 1) (hrel : header.count "reliability" = 1)
    (hrows : ∀ record, Except.ok record ∈ rows → record.length = header.length) :
    publicDNSResolvers d (.ok ⟨status, .ok (permute p header) :: rows.map (permuteRead p)⟩)
      = publicDNSResolvers d (.ok ⟨status, .ok header :: rows⟩) := by
  obtain ⟨h1, h2, h3, h4⟩ := scanHeader_permuted p header hp hip hrel
  have key : readRows d (.ok (permute p header) :: rows.map (permuteRead p)) 0 0 0 []
      = readRows d (.ok header :: rows) 0 0 0 [] := by
    simp only [readRows, if_true]
    exact readRows_permuted d p header.length _ _ _ _ h1 h2 h3 h4 rows 1 [] (by decide) hrows
  simp only [publicDNSResolvers, key]

/-- The columns `reliability, ip_address` put in the order `ip_address, reliability`. -/
theorem column_order_is_irrelevant_witness :
    permute [1, 0] ["reliability", "ip_address"] = ["ip_address", "reliability"] ∧
    publicDNSResolvers sampleDeps (.ok ⟨200, [.ok ["ip_address", "reliability"],
        .ok ["192.0.2.7", "0.9"], .ok ["192.0.2.8", "0.5"]]⟩)
      = publicDNSResolvers sampleDeps (.ok ⟨200, [.ok ["reliability", "ip_address"],
        .ok ["0.9", "192.0.2.7"], .ok ["0.5", "192.0.2.8"]]⟩) ∧
    publicDNSResolvers sampleDeps (.ok ⟨200, [.ok ["reliability", "ip_address"],
        .ok ["0.9", "192.0.2.7"], .ok ["0.5", "192.0.2.8"]]⟩) = .ok (.ok ["192.0.2.7"]) :=
  ⟨by decide,
    column_order_is_irrelevant sampleDeps 200 ["reliability", "ip_address"]
      [.ok ["0.9", "192.0.2.7"], .ok ["0.5", "192.0.2.8"]] [1, 0]
      (by decide) (by decide) (by decide)
      (by
        intro record h
        simp only [List.mem_cons, Except.ok.injEq, List.mem_singleton, List.not_mem_nil,
          or_false] at h
        rcases h with h | h <;> subst h <;> rfl),
    rfl⟩

/-! ## The wildcard filter -/

/-- C16. For a response with a question, `wildcardDetected` returns false, whatever
the pool, when the public-suffix lookup of the queried name (lower-cased, without its
last dot) fails or yields the empty string; otherwise it returns what the wildcard
detector of the issuing pool returns for the response and that registrable domain. -/
theorem wildcardDetected_spec (d : Deps) (resp : Msg) (q : Question) (rest : List Question)
    (hq : resp.Question = q :: rest) :
    ((∃ e, d.EffectiveTLDPlusOne (ToLower (RemoveLastDot q.Name)) = .error e) →
      ∀ r, wildcardDetected d resp r = .ok false) ∧
    (d.EffectiveTLDPlusOne (ToLower (RemoveLastDot q.Name)) = .ok "" →
      ∀ r, wildcardDetected d resp r = .ok false) ∧
    (∀ dom p, d.EffectiveTLDPlusOne (ToLower (RemoveLastDot q.Name)) = .ok dom → dom ≠ "" →
      wildcardDetected d resp (some p) = .ok (p.WildcardDetected resp dom)) := by
  refine ⟨?_, ?_, ?_⟩
  · rintro ⟨e, he⟩ r
    simp [wildcardDetected, hq, he]
  · intro he r
    simp [wildcardDetected, hq, he]
  · intro dom p he hne
    exact wildcardDetected_of_flagged d p resp q rest dom hq he hne

/-- The name `localhost` has no registrable domain: not detected, even by a pool that
flags every domain; `sub.example.test` is handed to the detector as `example.test`. -/
theorem wildcardDetected_spec_witness :
    sampleDeps.EffectiveTLDPlusOne (ToLower (RemoveLastDot "LocalHost."))
      = .error "cannot derive eTLD+1" ∧
    (∀ r, wildcardDetected sampleDeps (response RcodeSuccess "LocalHost." TypeA [sampleRecord]) r
      = .ok false) ∧
    wildcardDetected sampleDeps sampleAnswer (some wildcardPool)
      = .ok (wildcardPool.WildcardDetected sampleAnswer "example.test") :=
  ⟨rfl,
    (wildcardDetected_spec sampleDeps (response RcodeSuccess "LocalHost." TypeA [sampleRecord])
      { Name := "LocalHost.", Qtype := TypeA } [] rfl).1 ⟨_, rfl⟩,
    (wildcardDetected_spec sampleDeps sampleAnswer { Name := "sub.example.test.", Qtype := TypeA }
      [] rfl).2.2 "example.test" wildcardPool rfl (by decide)⟩

/-- C17. The answers that `PerformQuery` and `PerformUntrustedQuery` return come with
a nil error and are the lower-cased copies, in order, of the answers of the requested
type extracted from the response that `dnsQuery` returned: each has the requested
record type, and a name and data equal to their own lower-casing. -/
theorem answers_are_normalized (d : Deps) (g : Pools) (name : String) (qtype c c1 : Nat)
    (l : List ExtractedAnswer) (err : Option String) :
    (PerformQuery d g name qtype c = (.ok (some l, err), c1) →
      err = none ∧
      (∃ resp, dnsQuery (queryMessage d name qtype) g.trusted 50 c
          = (.ok (some resp, none), c1) ∧
        l = (AnswersByType (d.ExtractAnswers resp) qtype).map lowerAnswer) ∧
      ∀ a ∈ l, a.RType = qtype ∧ ToLower a.Name = a.Name ∧ ToLower a.Data = a.Data) ∧
    (PerformUntrustedQuery d g name qtype c = (.ok (some l, err), c1) →
      err = none ∧
      (∃ resp, dnsQuery (queryMessage d name qtype) g.untrusted 50 c
          = (.ok (some resp, none), c1) ∧
        l = (AnswersByType (d.ExtractAnswers resp) qtype).map lowerAnswer) ∧
      ∀ a ∈ l, a.RType = qtype ∧ ToLower a.Name = a.Name ∧ ToLower a.Data = a.Data) := by
  have key : ∀ r : Option Resolvers, performOn d r name qtype c = (.ok (some l, err), c1) →
      err = none ∧
      (∃ resp, dnsQuery (queryMessage d name qtype) r 50 c = (.ok (some resp, none), c1) ∧
        l = (AnswersByType (d.ExtractAnswers resp) qtype).map lowerAnswer) ∧
      ∀ a ∈ l, a.RType = qtype ∧ ToLower a.Name = a.Name ∧ ToLower a.Data = a.Data := by
    intro r h
    obtain ⟨he, resp, hq, _, hl⟩ := performOn_some d r name qtype c c1 l err h
    refine ⟨he, ⟨resp, hq, hl⟩, ?_⟩
    intro a ha
    rw [hl] at ha
    obtain ⟨rr, hrr, rfl⟩ := List.mem_map.mp ha
    have ht : rr.RType = qtype := by
      have := (List.mem_filter.mp hrr).2
      simpa using this
    exact ⟨ht, ToLower_idem _, ToLower_idem _⟩
  exact ⟨key g.trusted, key g.untrusted⟩

/-- A response with an alias record and an address record in upper case, asked for
the type A: the address record alone is returned, in lower case. -/
theorem answers_are_normalized_witness :
    PerformQuery sampleDeps ⟨some mixedCasePool, none⟩ "www.example.test" TypeA 0
      = (.ok (some [{ Name := "host.example.test", RType := TypeA, Data := "192.0.2.1" }],
          none), 1) ∧
    ∀ a ∈ [({ Name := "host.example.test", RType := TypeA, Data := "192.0.2.1" } :
        ExtractedAnswer)],
      a.RType = TypeA ∧ ToLower a.Name = a.Name ∧ ToLower a.Data = a.Data :=
  ⟨rfl,
    ((answers_are_normalized sampleDeps ⟨some mixedCasePool, none⟩ "www.example.test" TypeA 0 1
      [{ Name := "host.example.test", RType := TypeA, Data := "192.0.2.1" }] none).1 rfl).2.2⟩

/-! ## Responses with another rcode, and the shape of the results -/

theorem dnsQueryLoop_asTransportErrors (msg : Option Msg) (p : Resolvers) :
    ∀ (left c : Nat),
      dnsQueryLoop msg (some (asTransportErrors p)) left c = dnsQueryLoop msg (some p) left c := by
  intro left
  induction left with
  | zero => intro c; rfl
  | succ left ih =>
    intro c
    rw [dnsQueryLoop, dnsQueryLoop]
    have hq : (asTransportErrors p).QueryBlocking c msg
        = (match p.QueryBlocking c msg with
          | .error e => .error e
          | .ok resp =>
            if resp.Rcode = RcodeNameError ∨ resp.Rcode = RcodeSuccess then .ok resp
            else .error "rcode") := rfl
    rw [hq]
    cases p.QueryBlocking c msg with
    | error e => exact ih (c + 1)
    | ok resp =>
      by_cases h1 : resp.Rcode = RcodeNameError
      · simp [h1]
      · by_cases h2 : resp.Rcode = RcodeSuccess
        · simp [h1, h2]
        · simp only [h1, h2, or_self, if_false]
          exact ih (c + 1)

theorem dnsQueryLoop_returned (msg : Option Msg) (r : Option Resolvers) :
    ∀ (left c c1 : Nat) (resp : Msg) (err : Option String),
      dnsQueryLoop msg r left c = (.ok (some resp, err), c1) →
      resp.Rcode = RcodeSuccess ∧ resp.Answer ≠ [] ∧ err = none := by
  intro left
  induction left with
  | zero => intro c c1 resp err h; simp [dnsQueryLoop] at h
  | succ left ih =>
    intro c c1 resp err h
    cases r with
    | none => simp [dnsQueryLoop] at h
    | some p =>
      rw [dnsQueryLoop] at h
      cases hq : p.QueryBlocking c msg with
      | error e => rw [hq] at h; exact ih _ _ _ _ h
      | ok m =>
        rw [hq] at h
        simp only at h
        split_ifs at h with h1 h2 h3
        · simp at h
        · simp at h
        · simp only [Prod.mk.injEq, Except.ok.injEq, Option.some.injEq] at h
          obtain ⟨⟨hm, he⟩, _⟩ := h
          subst hm
          refine ⟨h2, ?_, he.symm⟩
          intro h0; exact h3 (by simp [h0])
        · exact ih _ _ _ _ h

/-- C18. In `dnsQuery` a response whose rcode is neither success nor NXDOMAIN counts
as a transport error does: the result and the number of engine calls are those
obtained from the pool in which these responses are replaced by transport errors;
when every attempt returns such a response the result is nil, nil after all the
attempts; and a response that `dnsQuery` returns has the rcode success and a
non-empty answer section, and comes with a nil error. -/
theorem other_rcodes_are_retried (msg : Option Msg) (p : Resolvers) (attempts : Int) (c : Nat) :
    dnsQuery msg (some (asTransportErrors p)) attempts c = dnsQuery msg (some p) attempts c ∧
    ((∀ i, i < attempts.toNat → ∃ resp, p.QueryBlocking (c + i) msg = .ok resp ∧
        resp.Rcode ≠ RcodeSuccess ∧ resp.Rcode ≠ RcodeNameError) →
      dnsQuery msg (some p) attempts c = (.ok (none, none), c + attempts.toNat)) ∧
    (∀ r c1 resp err, dnsQuery msg r attempts c = (.ok (some resp, err), c1) →
      resp.Rcode = RcodeSuccess ∧ resp.Answer ≠ [] ∧ err = none) := by
  refine ⟨dnsQueryLoop_asTransportErrors msg p _ c, ?_, ?_⟩
  · intro h
    have hretry : ∀ i, i < attempts.toNat →
        isRetried (p.QueryBlocking (c + i) msg) = true := by
      intro i hi
      obtain ⟨resp, hresp, h1, h2⟩ := h i hi
      rw [hresp]
      simp [isRetried, h1, h2]
    have := dnsQueryLoop_skip msg p attempts.toNat 0 c hretry
    unfold dnsQuery
    simpa [dnsQueryLoop] using this
  · intro r c1 resp err h
    exact dnsQueryLoop_returned msg r _ c c1 resp err h

/-- A pool that always answers SERVFAIL: 50 attempts, then nil, nil. -/
theorem other_rcodes_are_retried_witness :
    (∀ i, i < (50 : Int).toNat → ∃ resp,
      servfailPool.QueryBlocking (0 + i) (queryMessage sampleDeps "sub.example.test" TypeA)
        = .ok resp ∧ resp.Rcode ≠ RcodeSuccess ∧ resp.Rcode ≠ RcodeNameError) ∧
    dnsQuery (queryMessage sampleDeps "sub.example.test" TypeA) (some servfailPool) 50 0
      = (.ok (none, none), 50) ∧
    (sampleAnswer.Rcode = RcodeSuccess ∧ sampleAnswer.Answer ≠ [] ∧
      (none : Option String) = none) :=
  have hall : ∀ i, i < (50 : Int).toNat → ∃ resp,
      servfailPool.QueryBlocking (0 + i) (queryMessage sampleDeps "sub.example.test" TypeA)
        = .ok resp ∧ resp.Rcode ≠ RcodeSuccess ∧ resp.Rcode ≠ RcodeNameError :=
    fun _ _ => ⟨_, rfl, by decide, by decide⟩
  have h := other_rcodes_are_retried (queryMessage sampleDeps "sub.example.test" TypeA)
    servfailPool 50 0
  have h2 := other_rcodes_are_retried (queryMessage sampleDeps "sub.example.test" TypeA)
    answeringPool 50 0
  ⟨hall, h.2.1 hall, h2.2.2 (some answeringPool) 1 sampleAnswer none rfl⟩

theorem dnsQueryLoop_isOk (msg : Option Msg) (p : Resolvers) :
    ∀ (left c : Nat), ∃ res c1, dnsQueryLoop msg (some p) left c = (.ok res, c1) ∧
      ∀ resp, res.1 = some resp → ∃ i, p.QueryBlocking i msg = .ok resp := by
  intro left
  induction left with
  | zero => intro c; exact ⟨(none, none), c, rfl, by simp⟩
  | succ left ih =>
    intro c
    rw [dnsQueryLoop]
    cases hq : p.QueryBlocking c msg with
    | error e => exact ih (c + 1)
    | ok m =>
      simp only
      split_ifs
      · exact ⟨_, _, rfl, by simp⟩
      · exact ⟨_, _, rfl, by simp⟩
      · refine ⟨_, _, rfl, ?_⟩
        intro resp hresp
        simp only [Option.some.injEq] at hresp
        exact ⟨c, hresp ▸ hq⟩
      · exact ih (c + 1)

theorem filterAnswers_isOk (d : Deps) (p : Resolvers) (qtype : Nat) (res : DnsResult)
    (hq : ∀ resp, res.1 = some resp → resp.Question ≠ []) :
    ∃ out, filterAnswers d (some p) qtype res = .ok out := by
  obtain ⟨resp, err⟩ := res
  cases resp with
  | none => cases err <;> exact ⟨_, rfl⟩
  | some resp =>
    cases err with
    | some e => exact ⟨_, rfl⟩
    | none =>
      obtain ⟨b, hb⟩ := wildcardDetected_isOk d resp p (hq resp rfl)
      simp only [filterAnswers, hb]
      cases b with
      | true => exact ⟨_, rfl⟩
      | false =>
        simp only
        split_ifs <;> exact ⟨_, rfl⟩

theorem performOn_isOk (d : Deps) (p : Resolvers) (name : String) (qtype c : Nat)
    (hq : ∀ i m, p.QueryBlocking i (queryMessage d name qtype) = .ok m → m.Question ≠ []) :
    ∃ res c1, performOn d (some p) name qtype c = (.ok res, c1) := by
  obtain ⟨res, c1, h, horigin⟩ := dnsQueryLoop_isOk (queryMessage d name qtype) p 50 c
  have h' : dnsQuery (queryMessage d name qtype) (some p) 50 c = (.ok res, c1) := h
  obtain ⟨out, hout⟩ := filterAnswers_isOk d p qtype res (by
    intro resp hresp
    obtain ⟨i, hi⟩ := horigin resp hresp
    exact hq i resp hi)
  exact ⟨out, c1, by rw [performOn_of_dnsQuery d _ name qtype c _ _ h', hout]⟩

theorem performOn_shape (d : Deps) (r : Option Resolvers) (name : String) (qtype c c1 : Nat)
    (res : QueryResult) (h : performOn d r name qtype c = (.ok res, c1)) :
    (res.1 ≠ none → res.2 = none) ∧ (∀ l, res.1 = some l → l ≠ []) ∧
    ((isSuccess res ∧ ¬ isFailure res ∧ ¬ isIndeterminate res) ∨
      (¬ isSuccess res ∧ isFailure res ∧ ¬ isIndeterminate res) ∨
      (¬ isSuccess res ∧ ¬ isFailure res ∧ isIndeterminate res)) ∧
    ((res.2 = none ∧ res.1 ≠ none) ↔ isSuccess res) := by
  obtain ⟨ans, err⟩ := res
  cases ans with
  | none =>
    cases err with
    | none => simp [isSuccess, isFailure, isIndeterminate]
    | some e => simp [isSuccess, isFailure, isIndeterminate]
  | some l =>
    obtain ⟨he, resp, _, hne, hl⟩ := performOn_some d r name qtype c c1 l err h
    subst he
    have hl0 : l ≠ [] := by rw [hl]; simpa using hne
    simp [isSuccess, isFailure, isIndeterminate, hl0]

/-- A response without a question section makes `wildcardDetected` index an empty
slice: the query ends in a panic and returns no result. -/
theorem performOn_without_question :
    PerformQuery sampleDeps ⟨some noQuestionPool, none⟩ "sub.example.test" TypeA 0
      = (.error Fault.indexOutOfRange, 1) := rfl

/-- C19. Every result that `PerformQuery` or `PerformUntrustedQuery` returns has
non-nil answers only with a nil error, and non-nil answers are non-empty: it is
exactly one of a success (non-empty answers, nil error), an explicit failure (nil
answers, non-nil error) and the indeterminate result (nil, nil), and the test
`err == nil && ans != nil` of `guessAttempt` holds exactly for a success.  A result
is returned whenever the pool is present and the responses carry their question. -/
theorem result_is_one_of_three (d : Deps) (g : Pools) (name : String) (qtype c : Nat) :
    (∀ res c1, PerformQuery d g name qtype c = (.ok res, c1) →
      (res.1 ≠ none → res.2 = none) ∧ (∀ l, res.1 = some l → l ≠ []) ∧
      ((isSuccess res ∧ ¬ isFailure res ∧ ¬ isIndeterminate res) ∨
        (¬ isSuccess res ∧ isFailure res ∧ ¬ isIndeterminate res) ∨
        (¬ isSuccess res ∧ ¬ isFailure res ∧ isIndeterminate res)) ∧
      ((res.2 = none ∧ res.1 ≠ none) ↔ isSuccess res)) ∧
    (∀ res c1, PerformUntrustedQuery d g name qtype c = (.ok res, c1) →
      (res.1 ≠ none → res.2 = none) ∧ (∀ l, res.1 = some l → l ≠ []) ∧
      ((isSuccess res ∧ ¬ isFailure res ∧ ¬ isIndeterminate res) ∨
        (¬ isSuccess res ∧ isFailure res ∧ ¬ isIndeterminate res) ∨
        (¬ isSuccess res ∧ ¬ isFailure res ∧ isIndeterminate res)) ∧
      ((res.2 = none ∧ res.1 ≠ none) ↔ isSuccess res)) ∧
    (∀ p, g.trusted = some p →
      (∀ i m, p.QueryBlocking i (queryMessage d name qtype) = .ok m → m.Question ≠ []) →
      ∃ res c1, PerformQuery d g name qtype c = (.ok res, c1)) ∧
    (∀ p, g.untrusted = some p →
      (∀ i m, p.QueryBlocking i (queryMessage d name qtype) = .ok m → m.Question ≠ []) →
      ∃ res c1, PerformUntrustedQuery d g name qtype c = (.ok res, c1)) := by
  refine ⟨?_, ?_, ?_, ?_⟩
  · intro res c1 h
    exact performOn_shape d g.trusted name qtype c c1 res h
  · intro res c1 h
    exact performOn_shape d g.untrusted name qtype c c1 res h
  · intro p hp hq
    unfold PerformQuery
    rw [hp]
    exact performOn_isOk d p name qtype c hq
  · intro p hp hq
    unfold PerformUntrustedQuery
    rw [hp]
    exact performOn_isOk d p name qtype c hq

/-- The A query for `sub.example.test` against a pool that answers with its A record
returns a result, which is a success. -/
theorem result_is_one_of_three_witness :
    PerformQuery sampleDeps ⟨some answeringPool, none⟩ "sub.example.test" TypeA 0
      = (.ok (some [{ Name := "sub.example.test", RType := TypeA, Data := "192.0.2.1" }], none),
          1) ∧
    isSuccess (some [{ Name := "sub.example.test", RType := TypeA, Data := "192.0.2.1" }], none) ∧
    (∃ res c1, PerformQuery sampleDeps ⟨some answeringPool, none⟩ "sub.example.test" TypeA 0
      = (.ok res, c1)) :=
  have h1 := (result_is_one_of_three sampleDeps ⟨some answeringPool, none⟩
    "sub.example.test" TypeA 0).1
    (some [{ Name := "sub.example.test", RType := TypeA, Data := "192.0.2.1" }], none) 1 rfl
  have h4 := (result_is_one_of_three sampleDeps ⟨some answeringPool, none⟩
    "sub.example.test" TypeA 0).2.2.1 answeringPool rfl (by
      intro i m hm
      have : m = sampleAnswer := by
        simp only [answeringPool, failingThen, scriptedPool, Nat.not_lt_zero, if_false,
          Except.ok.injEq] at hm
        exact hm.symm
      subst this
      decide)
  ⟨rfl, h1.2.2.2.mp ⟨rfl, by simp⟩, h4⟩

end Support
